import Mathlib

/-
Verification of the execution-context core of sqlalchemy's
lib/sqlalchemy/engine/default.py against its specification.

The Python code is shallowly embedded: Python-level values become the
inductive `Value` (with `Value.none` playing the role of Python `None`),
parameter dictionaries become total functions `String → Value` (the
compiled statement's `construct_params` routine guarantees every bind key
is present), and side effects (default callables, sequence fetches,
driver round trips) are made explicit by threading a `Nat` effect state
and accumulating a trace of `Event`s.  Columns are identified by their
within-execution parameter key (the result of the source's
`_within_exec_param_key_getter`), which is folded into `Column.key`.
-/

namespace SqlaDefault

/-- Python-level runtime values; `Value.none` models Python `None`. -/
inductive Value where
  | none
  | int (i : Int)
  | str (s : String)
  | bool (b : Bool)
deriving DecidableEq, Repr

/-- A parameter group: one mapping from bind-parameter key to value
(one logical row of an INSERT/UPDATE).  `construct_params` output is a
complete mapping, so it is modelled as a total function. -/
def ParamGroup : Type := String → Value

/-- Pointwise dictionary write, `param[key] = val` on a Python dict. -/
def setParam (p : ParamGroup) (k : String) (v : Value) : ParamGroup :=
  fun a => if a = k then v else p a

/-- Observable effects of one execution, in order of occurrence. -/
inductive Event where
  | defaultCallable (colKey : String) (v : Value)
  | defaultClause (colKey : String) (v : Value)
  | fireSequence (colKey : String) (v : Value)
  | doExecute
  | doExecuteMany (ngroups : Nat)
  | getLastrowid (v : Value)
  | fetchAllRows (n : Nat)
  | fetchOneRow
deriving DecidableEq, Repr

/-- Exceptions surfaced by the modelled fragment. -/
inductive SAErr where
  | invalidRequest (msg : String)
  | resourceClosed
  | assertionFailed
deriving DecidableEq, Repr

/-- A column default (`Column.default` / `Column.onupdate`).  Callables
receive the current row parameters (the source passes the execution
context, whose `current_parameters` is the row being processed); clause
elements and sequences are private scalar round trips modelled as
effectful functions on the `Nat` effect state. -/
inductive ColDefault where
  | scalar (arg : Value)
  | callable (fn : ParamGroup → Nat → Value × Nat)
  | clause (fn : Nat → Value × Nat)
  | sequence (fn : Nat → Value × Nat)

/-- The `default_is_scalar` test from sqlalchemy.sql.schema: true only
for a plain scalar default. -/
def default_is_scalar : ColDefault → Bool
  | ColDefault.scalar _ => true
  | _ => false

/-- A table column as seen by the prefetch-default machinery: its
within-execution parameter key, its INSERT default and its ON UPDATE
default. -/
structure Column where
  key : String
  default : Option ColDefault
  onupdate : Option ColDefault

/-- DefaultExecutionContext._exec_default: dispatch on the kind of
default, in source branch order (sequence, callable, clause element,
scalar). -/
def _exec_default (c : Column) (d : ColDefault) (current : ParamGroup)
    (st : Nat) : Value × Nat × List Event :=
  match d with
  | ColDefault.sequence fn =>
      ((fn st).1, (fn st).2, [Event.fireSequence c.key (fn st).1])
  | ColDefault.callable fn =>
      ((fn current st).1, (fn current st).2,
        [Event.defaultCallable c.key (fn current st).1])
  | ColDefault.clause fn =>
      ((fn st).1, (fn st).2, [Event.defaultClause c.key (fn st).1])
  | ColDefault.scalar a => (a, st, [])

/-- DefaultExecutionContext.get_insert_default: `None` when the column
has no default, else `_exec_default`. -/
def get_insert_default (c : Column) (current : ParamGroup) (st : Nat) :
    Value × Nat × List Event :=
  match c.default with
  | Option.none => (Value.none, st, [])
  | some d => _exec_default c d current st

/-- DefaultExecutionContext.get_update_default. -/
def get_update_default (c : Column) (current : ParamGroup) (st : Nat) :
    Value × Nat × List Event :=
  match c.onupdate with
  | Option.none => (Value.none, st, [])
  | some d => _exec_default c d current st

/-- The `scalar_defaults` dictionary built at the top of
`_process_executemany_defaults`: scalar INSERT defaults of the insert
prefetch columns, then scalar ON UPDATE defaults of the update prefetch
columns (dict insertion order; later bindings overwrite earlier ones). -/
def scalar_defaults_entries (ip up : List Column) : List (String × Value) :=
  (ip.filterMap fun c =>
    match c.default with
    | some (ColDefault.scalar v) => some (c.key, v)
    | _ => Option.none) ++
  (up.filterMap fun c =>
    match c.onupdate with
    | some (ColDefault.scalar v) => some (c.key, v)
    | _ => Option.none)

/-- Python-dict lookup over an insertion-ordered binding list: the last
binding for a key wins. -/
def dictLookupLast (l : List (String × Value)) (k : String) : Option Value :=
  match l with
  | [] => Option.none
  | e :: rest =>
      match dictLookupLast rest k with
      | some v => some v
      | Option.none => if e.1 = k then some e.2 else Option.none

/-- Inner INSERT-column loop of `_process_executemany_defaults` for one
row: use the hoisted scalar default when the column is in the
`scalar_defaults` dict, else call `get_insert_default`; write the value
only when it is not `None`. -/
def emColsInsert (sd : String → Option Value) (cols : List Column)
    (param : ParamGroup) (st : Nat) : ParamGroup × Nat × List Event :=
  match cols with
  | [] => (param, st, [])
  | c :: rest =>
      let r :=
        match sd c.key with
        | some v => (v, st, ([] : List Event))
        | Option.none => get_insert_default c param st
      let param1 := if r.1 = Value.none then param else setParam param c.key r.1
      let q := emColsInsert sd rest param1 r.2.1
      (q.1, q.2.1, r.2.2 ++ q.2.2)

/-- Inner UPDATE-column loop of `_process_executemany_defaults` for one
row. -/
def emColsUpdate (sd : String → Option Value) (cols : List Column)
    (param : ParamGroup) (st : Nat) : ParamGroup × Nat × List Event :=
  match cols with
  | [] => (param, st, [])
  | c :: rest =>
      let r :=
        match sd c.key with
        | some v => (v, st, ([] : List Event))
        | Option.none => get_update_default c param st
      let param1 := if r.1 = Value.none then param else setParam param c.key r.1
      let q := emColsUpdate sd rest param1 r.2.1
      (q.1, q.2.1, r.2.2 ++ q.2.2)

/-- One iteration of the outer row loop of
`_process_executemany_defaults`: insert prefetch columns, then update
prefetch columns, on the current row. -/
def emRow (sd : String → Option Value) (ip up : List Column)
    (param : ParamGroup) (st : Nat) : ParamGroup × Nat × List Event :=
  let a := emColsInsert sd ip param st
  let b := emColsUpdate sd up a.1 a.2.1
  (b.1, b.2.1, a.2.2 ++ b.2.2)

/-- The outer row loop of `_process_executemany_defaults`
(`for param in self.compiled_parameters`). -/
def emRows (sd : String → Option Value) (ip up : List Column) :
    List ParamGroup → Nat → List ParamGroup × Nat × List Event
  | [], st => ([], st, [])
  | p :: rest, st =>
      let a := emRow sd ip up p st
      let b := emRows sd ip up rest a.2.1
      (a.1 :: b.1, b.2.1, a.2.2 ++ b.2.2)

/-- DefaultExecutionContext._process_executemany_defaults. -/
def _process_executemany_defaults (ip up : List Column)
    (cps : List ParamGroup) (st : Nat) : List ParamGroup × Nat × List Event :=
  emRows (dictLookupLast (scalar_defaults_entries ip up)) ip up cps st

/-- INSERT-column loop of `_process_executesingle_defaults`: per-column
scalar shortcut, else `get_insert_default`; write only non-`None`
values. -/
def singleColsInsert (cols : List Column) (param : ParamGroup) (st : Nat) :
    ParamGroup × Nat × List Event :=
  match cols with
  | [] => (param, st, [])
  | c :: rest =>
      let r :=
        match c.default with
        | some (ColDefault.scalar v) => (v, st, ([] : List Event))
        | _ => get_insert_default c param st
      let param1 := if r.1 = Value.none then param else setParam param c.key r.1
      let q := singleColsInsert rest param1 r.2.1
      (q.1, q.2.1, r.2.2 ++ q.2.2)

/-- UPDATE-column loop of `_process_executesingle_defaults`: always
calls `get_update_default` (no scalar shortcut in the single-row
pass). -/
def singleColsUpdate (cols : List Column) (param : ParamGroup) (st : Nat) :
    ParamGroup × Nat × List Event :=
  match cols with
  | [] => (param, st, [])
  | c :: rest =>
      let r := get_update_default c param st
      let param1 := if r.1 = Value.none then param else setParam param c.key r.1
      let q := singleColsUpdate rest param1 r.2.1
      (q.1, q.2.1, r.2.2 ++ q.2.2)

/-- DefaultExecutionContext._process_executesingle_defaults: operates on
`compiled_parameters[0]` only. -/
def _process_executesingle_defaults (ip up : List Column)
    (cps : List ParamGroup) (st : Nat) : List ParamGroup × Nat × List Event :=
  match cps with
  | [] => ([], st, [])
  | p :: rest =>
      let a := singleColsInsert ip p st
      let b := singleColsUpdate up a.1 a.2.1
      (b.1 :: rest, b.2.1, a.2.2 ++ b.2.2)

/-- Classification of `compiled.statement` as probed by
`_use_server_side_cursor` (`expression.Selectable` vs
`expression.TextClause`; the two classes are disjoint). -/
inductive StmtKind where
  | selectable
  | textclause
  | other
deriving DecidableEq, Repr

/-- Execution options consumed by the modelled fragment:
`stream_results` is absent, `False` or `True`. -/
structure ExecutionOptions where
  stream_results : Option Bool

/-- Dialect capability flags consumed by cursor acquisition. -/
structure Dialect where
  supports_server_side_cursors : Bool
  server_side_cursors : Bool

/-- The `SERVER_SIDE_CURSOR_RE` heuristic: the compiled pattern
`\s*SELECT` with `re.I`, applied with `.match` (anchored at the start of
the statement text). -/
def matchesServerSideCursorRe (s : String) : Bool :=
  let t := s.toList.dropWhile fun c =>
    c = ' ' || c = '\t' || c = '\n' || c = '\r' || c = '\x0b' || c = '\x0c'
  (t.take 6).map Char.toLower = "select".toList

/-- DefaultExecutionContext._use_server_side_cursor.  `compiledKind` is
`Option.none` when the context has no compiled statement (plain-text
entry point), else the class of `compiled.statement`; `stmt` is
`self.unicode_statement` at call time. -/
def _use_server_side_cursor (d : Dialect) (eo : ExecutionOptions)
    (compiledKind : Option StmtKind) (stmt : String) : Bool :=
  if !d.supports_server_side_cursors then false
  else if d.server_side_cursors then
    (eo.stream_results.getD true) &&
      ((compiledKind = some StmtKind.selectable) ||
        ((compiledKind = Option.none || compiledKind = some StmtKind.textclause) &&
          stmt ≠ "" && matchesServerSideCursorRe stmt))
  else eo.stream_results.getD false

/-- DefaultExecutionContext.create_cursor, reduced to the boolean
decision it makes (the resulting `_is_server_side` flag): server-side
when the dialect supports server-side cursors and either the
`stream_results` option is true, or the deprecated dialect-wide
`server_side_cursors` toggle is set and `_use_server_side_cursor`
agrees. -/
def create_cursor_is_server_side (d : Dialect) (eo : ExecutionOptions)
    (compiledKind : Option StmtKind) (stmt : String) : Bool :=
  d.supports_server_side_cursors &&
    (eo.stream_results.getD false ||
      (d.server_side_cursors && _use_server_side_cursor d eo compiledKind stmt))

/-- Result of `compiled._process_parameters_for_postcompile` (external
to this file's source; consumed as an opaque extraction surface). -/
structure ExpandedState where
  statement : String
  processors : String → Option (Value → Value)
  positiontup : List String

/-- The compiled statement, restricted to the extraction surface
`_init_compiled` and generated-key resolution consume.  Opaque external
routines (`construct_params`, `_process_parameters_for_postcompile`, the
two primary-key getters, the schema-translate renderer) are carried as
function fields. -/
structure SQLCompiler where
  string : String
  positional : Bool
  positiontup : List String
  isinsert : Bool
  isupdate : Bool
  isdelete : Bool
  isplaintext : Bool
  stmt_kind : StmtKind
  stmt_returning : Bool
  implicit_returning : Bool
  insert_prefetch : List Column
  update_prefetch : List Column
  _bind_processors : String → Option (Value → Value)
  literal_execute_params : Bool
  post_compile_params : Bool
  postfetch_lastrowid : Bool
  construct_params : Option ParamGroup → Nat → ParamGroup
  _process_parameters_for_postcompile : ParamGroup → ExpandedState
  schema_translates : Option (String → String)
  _inserted_primary_key_from_lastrowid_getter :
    Option Value → ParamGroup → List Value
  _inserted_primary_key_from_returning_getter :
    List Value → ParamGroup → List Value

/-- An all-`None` parameter group (placeholder for an impossible empty
`compiled_parameters` list). -/
def emptyParams : ParamGroup := fun _ => Value.none

/-- Construction of `self.compiled_parameters`: one call of
`compiled.construct_params` when no parameters were supplied, else one
call per group with its group number. -/
def constructedParams (compiled : SQLCompiler)
    (parameters : List ParamGroup) : List ParamGroup :=
  if parameters.isEmpty then [compiled.construct_params Option.none 0]
  else parameters.enum.map fun gm => compiled.construct_params (some gm.2) gm.1

/-- `dict(processors)` followed by `.update(expanded_state.processors)`:
bindings of the second mapping overwrite the first. -/
def mergeProcs (base extra : String → Option (Value → Value)) :
    String → Option (Value → Value) :=
  fun k =>
    match extra k with
    | some f => some f
    | Option.none => base k

/-- Apply the per-key bind processor when present
(`flattened_processors[key](compiled_params[key]) if key in
flattened_processors else compiled_params[key]`). -/
def applyProc (procs : String → Option (Value → Value)) (k : String)
    (v : Value) : Value :=
  match procs k with
  | some f => f v
  | Option.none => v

/-- One driver-ready parameter group: a positional sequence for
positional dialects, a mapping for named dialects. -/
inductive DriverParams where
  | positional (l : List Value)
  | named (m : String → Value)

/-- Final parameter assembly of `_init_compiled`: positional dialects
build, per group, the list of processed values in `positiontup` order;
named dialects build the processed mapping. -/
def assembleDriverParams (positional : Bool)
    (procs : String → Option (Value → Value)) (ptup : List String)
    (cps : List ParamGroup) : List DriverParams :=
  if positional then
    cps.map fun cp => DriverParams.positional (ptup.map fun k => applyProc procs k (cp k))
  else
    cps.map fun cp => DriverParams.named fun k => applyProc procs k (cp k)

/-- The execution-context state produced by `_init_compiled`. -/
structure Ctx where
  compiled_parameters : List ParamGroup
  parameters : List DriverParams
  executemany : Bool
  unicode_statement : String
  _is_server_side : Bool
  _is_implicit_returning : Bool
  _is_explicit_returning : Bool

/-- The prefetch-default step of `_init_compiled`: run only when some
prefetch column exists; executemany batches use the multi-row pass,
single executions the single-row pass. -/
def processDefaults (compiled : SQLCompiler) (cps : List ParamGroup)
    (em : Bool) (st : Nat) : List ParamGroup × Nat × List Event :=
  if !compiled.insert_prefetch.isEmpty || !compiled.update_prefetch.isEmpty then
    if em then
      _process_executemany_defaults compiled.insert_prefetch
        compiled.update_prefetch cps st
    else
      _process_executesingle_defaults compiled.insert_prefetch
        compiled.update_prefetch cps st
  else (cps, st, [])

/-- Schema-translate rendering of the final statement text (the
renderer itself is external; `Option.none` models a compiled statement
with no schema-translate map). -/
def renderSchemaTranslates (compiled : SQLCompiler) (s : String) : String :=
  match compiled.schema_translates with
  | some f => f s
  | Option.none => s

/-- DefaultExecutionContext._init_compiled: constructs the context for
a compiled SQL construct.  Returns the context (or the raised
exception), the threaded effect state and the trace of side effects
performed during construction. -/
def _init_compiled (eo : ExecutionOptions) (compiled : SQLCompiler)
    (parameters : List ParamGroup) (d : Dialect) (st : Nat) :
    Except SAErr Ctx × Nat × List Event :=
  let is_crud := compiled.isinsert || compiled.isupdate || compiled.isdelete
  if is_crud && compiled.implicit_returning && compiled.stmt_returning then
    (Except.error SAErr.assertionFailed, st, [])
  else
    let is_explicit := is_crud && compiled.stmt_returning
    let is_implicit := is_crud && compiled.implicit_returning
    let cps0 := constructedParams compiled parameters
    let em := decide (1 < parameters.length)
    let is_ss := create_cursor_is_server_side d eo (some compiled.stmt_kind)
      compiled.string
    let pd := processDefaults compiled cps0 em st
    if compiled.literal_execute_params || compiled.post_compile_params then
      if em then
        (Except.error (SAErr.invalidRequest
          "literal_execute or expanding parameters cannot be used with executemany()"),
          pd.2.1, pd.2.2)
      else
        let ex := compiled._process_parameters_for_postcompile (pd.1.headD emptyParams)
        let flat := mergeProcs compiled._bind_processors ex.processors
        (Except.ok
          { compiled_parameters := pd.1,
            parameters := assembleDriverParams compiled.positional flat
              ex.positiontup pd.1,
            executemany := em,
            unicode_statement := renderSchemaTranslates compiled ex.statement,
            _is_server_side := is_ss,
            _is_implicit_returning := is_implicit,
            _is_explicit_returning := is_explicit },
          pd.2.1, pd.2.2)
    else
      (Except.ok
        { compiled_parameters := pd.1,
          parameters := assembleDriverParams compiled.positional
            compiled._bind_processors compiled.positiontup pd.1,
          executemany := em,
          unicode_statement := renderSchemaTranslates compiled compiled.string,
          _is_server_side := is_ss,
          _is_implicit_returning := is_implicit,
          _is_explicit_returning := is_explicit },
        pd.2.1, pd.2.2)

/-- A result row as returned by the driver. -/
def Row : Type := List Value

/-- Modelled from the spec: the normalized cursor-like result object
(`CursorResult` lives in engine/cursor.py, outside the given sources).
It holds the driver rows, a fetch position, and the soft-closed flag;
per the spec, soft close releases the row-fetching capability and a
further fetch fails with an already-closed condition. -/
structure CursorResult where
  rows : List Row
  pos : Nat
  soft_closed : Bool

/-- Modelled from the spec: `result.all()` fetches every remaining row
in one pass and leaves the result positioned at the end. -/
def CursorResult.all (r : CursorResult) :
    List Row × CursorResult × List Event :=
  let fetched := r.rows.drop r.pos
  (fetched, { r with pos := r.rows.length }, [Event.fetchAllRows fetched.length])

/-- Modelled from the spec: `result._soft_close()` marks the result
soft-closed. -/
def CursorResult.soft_close (r : CursorResult) : CursorResult :=
  { r with soft_closed := true }

/-- Modelled from the spec: `result.fetchone()`; on a soft-closed
result it fails with an already-closed condition rather than returning
data, otherwise it yields the next row (or `Option.none` when
exhausted). -/
def CursorResult.fetchone (r : CursorResult) :
    Except SAErr (Option Row) × CursorResult × List Event :=
  if r.soft_closed then (Except.error SAErr.resourceClosed, r, [])
  else
    match r.rows.drop r.pos with
    | [] => (Except.ok Option.none, r, [Event.fetchOneRow])
    | row :: _ =>
        (Except.ok (some row), { r with pos := r.pos + 1 }, [Event.fetchOneRow])

/-- Outcome of `_setup_dml_or_text_result`: the (possibly soft-closed)
result, the generated-primary-key rows when a strategy set them
(`Option.none` means the memoized default `_setup_ins_pk_from_empty`
accessor stays in effect), and `returned_default_rows`. -/
structure DMLResult where
  result : CursorResult
  inserted_primary_key_rows : Option (List (List Value))
  returned_default_rows : Option (List Row)

/-- DefaultExecutionContext._setup_ins_pk_from_lastrowid: one
`get_lastrowid` driver access combined with the first compiled
parameter group through the compiled statement's lastrowid getter. -/
def _setup_ins_pk_from_lastrowid (compiled : SQLCompiler) (ctx : Ctx)
    (lastrowid : Value) : List (List Value) × List Event :=
  ([compiled._inserted_primary_key_from_lastrowid_getter (some lastrowid)
      (ctx.compiled_parameters.headD emptyParams)],
    [Event.getLastrowid lastrowid])

/-- DefaultExecutionContext._setup_ins_pk_from_empty: the lastrowid
getter applied with no driver value to every compiled parameter
group. -/
def _setup_ins_pk_from_empty (compiled : SQLCompiler) (ctx : Ctx) :
    List (List Value) :=
  ctx.compiled_parameters.map fun param =>
    compiled._inserted_primary_key_from_lastrowid_getter Option.none param

/-- DefaultExecutionContext._setup_ins_pk_from_implicit_returning:
empty when no rows came back, else the returning getter applied to the
rows zipped positionally with the compiled parameter groups. -/
def _setup_ins_pk_from_implicit_returning (compiled : SQLCompiler)
    (ctx : Ctx) (rows : List Row) : List (List Value) :=
  if rows.isEmpty then []
  else
    (rows.zip ctx.compiled_parameters).map fun rp =>
      compiled._inserted_primary_key_from_returning_getter rp.1 rp.2

/-- DefaultExecutionContext._setup_dml_or_text_result, restricted to
the generated-key resolution logic: the lastrowid strategy when the
compiled INSERT requests `postfetch_lastrowid`, then the
implicit-RETURNING branch (fetch all rows, derive keys, soft close),
the no-RETURNING soft close, the UPDATE implicit-RETURNING single
fetch, and the no-rows soft close.  `metadataReturnsRows` stands for
`result._metadata.returns_rows`. -/
def _setup_dml_or_text_result (compiled : SQLCompiler) (ctx : Ctx)
    (cursorRows : List Row) (lastrowid : Value)
    (metadataReturnsRows : Bool) : DMLResult × List Event :=
  let pk0 :=
    if compiled.isinsert && compiled.postfetch_lastrowid then
      let a := _setup_ins_pk_from_lastrowid compiled ctx lastrowid
      (some a.1, a.2)
    else ((Option.none : Option (List (List Value))), ([] : List Event))
  let result0 : CursorResult := { rows := cursorRows, pos := 0, soft_closed := false }
  if compiled.isinsert then
    if ctx._is_implicit_returning then
      let a := result0.all
      ({ result := a.2.1.soft_close,
         inserted_primary_key_rows :=
           some (_setup_ins_pk_from_implicit_returning compiled ctx a.1),
         returned_default_rows := some a.1 },
        pk0.2 ++ a.2.2)
    else if !ctx._is_explicit_returning then
      ({ result := result0.soft_close, inserted_primary_key_rows := pk0.1,
         returned_default_rows := Option.none }, pk0.2)
    else
      ({ result := result0, inserted_primary_key_rows := pk0.1,
         returned_default_rows := Option.none }, pk0.2)
  else if compiled.isupdate && ctx._is_implicit_returning then
    let a := result0.fetchone
    let rdr :=
      match a.1 with
      | Except.ok (some row) => some [row]
      | _ => Option.none
    ({ result := a.2.1.soft_close, inserted_primary_key_rows := Option.none,
       returned_default_rows := rdr }, a.2.2)
  else if !metadataReturnsRows then
    ({ result := result0.soft_close, inserted_primary_key_rows := Option.none,
       returned_default_rows := Option.none }, [])
  else
    ({ result := result0, inserted_primary_key_rows := Option.none,
       returned_default_rows := Option.none }, [])

/-- Modelled from the spec: the driver call step performed by the
owning connection after construction (engine/base.py is outside the
given sources) — one `do_executemany` call for a multi-group batch,
else one `do_execute` call. -/
def driverExecute (ctx : Ctx) : List Event :=
  if ctx.executemany then [Event.doExecuteMany ctx.parameters.length]
  else [Event.doExecute]

/-- What the driver reports back for the one round trip: result rows,
the driver lastrowid, and whether cursor metadata announces rows. -/
structure DriverReply where
  rows : List Row
  lastrowid : Value
  metadataReturnsRows : Bool

/-- The full modelled execution of a compiled DML statement:
construction (`_init_compiled`), the driver call, then
`_setup_dml_or_text_result`; the trace concatenates the three phases in
order.  Construction failure short-circuits before any driver call. -/
def runCompiledDML (eo : ExecutionOptions) (compiled : SQLCompiler)
    (parameters : List ParamGroup) (d : Dialect) (st : Nat)
    (reply : DriverReply) :
    Except SAErr (Ctx × DMLResult) × Nat × List Event :=
  match _init_compiled eo compiled parameters d st with
  | (Except.error e, st1, ev) => (Except.error e, st1, ev)
  | (Except.ok ctx, st1, ev) =>
      let dev := driverExecute ctx
      let a := _setup_dml_or_text_result compiled ctx reply.rows
        reply.lastrowid reply.metadataReturnsRows
      (Except.ok (ctx, a.1), st1, ev ++ dev ++ a.2)

/-!
Identifier normalization (`DefaultDialect.normalize_name` /
`denormalize_name`).  Identifiers are modelled as lists of character
codes; Python case folding is modelled on the ASCII fragment, which
covers the claims' domain of case-foldable ASCII letters.  Python
string equality (`==`) compares content only, also between a
`quoted_name` and a plain `str`.
-/
/-- ASCII lower-case folding of one character code. -/
def lowerCode (n : Nat) : Nat := if 65 ≤ n ∧ n ≤ 90 then n + 32 else n

/-- ASCII upper-case folding of one character code. -/
def upperCode (n : Nat) : Nat := if 97 ≤ n ∧ n ≤ 122 then n - 32 else n

/-- A case-foldable ASCII letter. -/
def isAsciiLetter (n : Nat) : Prop :=
  (65 ≤ n ∧ n ≤ 90) ∨ (97 ≤ n ∧ n ≤ 122)

instance (n : Nat) : Decidable (isAsciiLetter n) := by
  unfold isAsciiLetter; infer_instance

/-- An identifier value: its character codes plus the `quoted_name`
quote flag (`Option.none` for a plain `str`, `some true` for
`quoted_name(name, quote=True)`). -/
structure SAName where
  chars : List Nat
  quote : Option Bool
deriving DecidableEq, Repr

/-- Modelled from the spec: `quoted_name.lower()` (sql/elements.py is
outside the given sources) — the force-quoting mark prevents the name
from being case-folded, so a quote-marked name folds to itself; a plain
name folds its content. -/
def SAName.lowered (n : SAName) : SAName :=
  if n.quote = some true then n else ⟨n.chars.map lowerCode, Option.none⟩

/-- Modelled from the spec: `quoted_name.upper()`, symmetric to
`SAName.lowered`. -/
def SAName.uppered (n : SAName) : SAName :=
  if n.quote = some true then n else ⟨n.chars.map upperCode, Option.none⟩

/-- DefaultDialect.normalize_name.  `rq` is the identifier preparer's
`_requires_quotes` predicate (external), applied to the content of
`name.lower()`. -/
def normalize_name (rq : List Nat → Bool) :
    Option SAName → Option SAName
  | Option.none => Option.none
  | some name =>
      let nl := name.lowered
      let nu := name.uppered
      if nu.chars = nl.chars then some name
      else if nu.chars = name.chars ∧ ¬ rq nl.chars then some nl
      else if nl.chars = name.chars then some ⟨name.chars, some true⟩
      else some name

/-- DefaultDialect.denormalize_name. -/
def denormalize_name (rq : List Nat → Bool) :
    Option SAName → Option SAName
  | Option.none => Option.none
  | some name =>
      let nl := name.lowered
      let nu := name.uppered
      if nu.chars = nl.chars then some name
      else if nl.chars = name.chars ∧ ¬ rq nl.chars then some nu
      else some name

/-!
Definitions written from the claims' words (not from the source), each
used only to compare the specified behaviour with the embedded code.
-/
/-- Modelled from the spec (claim C6 wording): multi-row default
resolution with the per-column loop outer and the row loop inner — all
rows of one prefetch column processed before the next column starts —
with scalar-default columns hoisted.  Insert prefetch columns first,
then update prefetch columns, matching the claim read on the source
loops. -/
def emColumnOuterInsert (sd : String → Option Value) (cols : List Column) :
    List ParamGroup → Nat → List ParamGroup × Nat × List Event :=
  fun cps st =>
    match cols with
    | [] => (cps, st, [])
    | c :: rest =>
        let a := emColsInsertOneCol sd c cps st
        let b := emColumnOuterInsert sd rest a.1 a.2.1
        (b.1, b.2.1, a.2.2 ++ b.2.2)
where
  /-- One column applied to every row, in row order. -/
  emColsInsertOneCol (sd : String → Option Value) (c : Column) :
      List ParamGroup → Nat → List ParamGroup × Nat × List Event :=
    fun cps st =>
      match cps with
      | [] => ([], st, [])
      | p :: rest =>
          let r :=
            match sd c.key with
            | some v => (v, st, ([] : List Event))
            | Option.none => get_insert_default c p st
          let p1 := if r.1 = Value.none then p else setParam p c.key r.1
          let q := emColsInsertOneCol sd c rest r.2.1
          (p1 :: q.1, q.2.1, r.2.2 ++ q.2.2)

/-- Modelled from the spec (claim C6 wording): no-hoisting variant of
the multi-row pass — identical loops to the source but every default,
scalar ones included, is evaluated per row through
`get_insert_default` / `get_update_default`. -/
def emColsInsertNaive (cols : List Column) (param : ParamGroup) (st : Nat) :
    ParamGroup × Nat × List Event :=
  match cols with
  | [] => (param, st, [])
  | c :: rest =>
      let r := get_insert_default c param st
      let param1 := if r.1 = Value.none then param else setParam param c.key r.1
      let q := emColsInsertNaive rest param1 r.2.1
      (q.1, q.2.1, r.2.2 ++ q.2.2)

/-- No-hoisting variant of the update-column loop. -/
def emColsUpdateNaive (cols : List Column) (param : ParamGroup) (st : Nat) :
    ParamGroup × Nat × List Event :=
  match cols with
  | [] => (param, st, [])
  | c :: rest =>
      let r := get_update_default c param st
      let param1 := if r.1 = Value.none then param else setParam param c.key r.1
      let q := emColsUpdateNaive rest param1 r.2.1
      (q.1, q.2.1, r.2.2 ++ q.2.2)

/-- No-hoisting variant of one row of the multi-row pass. -/
def emRowNaive (ip up : List Column) (param : ParamGroup) (st : Nat) :
    ParamGroup × Nat × List Event :=
  let a := emColsInsertNaive ip param st
  let b := emColsUpdateNaive up a.1 a.2.1
  (b.1, b.2.1, a.2.2 ++ b.2.2)

/-- No-hoisting variant of the whole multi-row pass. -/
def emRowsNaive (ip up : List Column) :
    List ParamGroup → Nat → List ParamGroup × Nat × List Event
  | [], st => ([], st, [])
  | p :: rest, st =>
      let a := emRowNaive ip up p st
      let b := emRowsNaive ip up rest a.2.1
      (a.1 :: b.1, b.2.1, a.2.2 ++ b.2.2)

/-- Modelled from the spec (claim C8 wording): server-side cursor used
iff the dialect capability flag is set AND (the `stream_results`
execution option is set OR the legacy dialect-wide toggle is set AND
the statement text matches the SELECT-only heuristic). -/
def claimServerSideCond (d : Dialect) (eo : ExecutionOptions)
    (stmt : String) : Bool :=
  d.supports_server_side_cursors &&
    (eo.stream_results.getD false ||
      (d.server_side_cursors && matchesServerSideCursorRe stmt))

/-- Modelled from the spec (claim C4 scenario): the lastrowid getter
the compiler builds for a table `(id AUTOINCREMENT PK, name TEXT)` —
the primary-key row is the driver value when present, else the
already-known `id` parameter value. -/
def lastrowidGetterIdName : Option Value → ParamGroup → List Value :=
  fun lr p =>
    match lr with
    | some v => [v]
    | Option.none => [p "id"]

/-!
Helper lemmas: event classification, list lengths, inversion of
`_init_compiled`.
-/
/-- Events emitted by prefetch-default resolution. -/
def Event.isDefaultResolution : Event → Bool
  | Event.defaultCallable _ _ => true
  | Event.defaultClause _ _ => true
  | Event.fireSequence _ _ => true
  | _ => false

/-- Main driver calls (`do_execute` / `do_executemany`). -/
def Event.isDriverCall : Event → Bool
  | Event.doExecute => true
  | Event.doExecuteMany _ => true
  | _ => false

/-- Accesses of the dialect's last-row-id hook. -/
def Event.isLastrowidAccess : Event → Bool
  | Event.getLastrowid _ => true
  | _ => false

/-- Result-row fetch round trips. -/
def Event.isRowFetch : Event → Bool
  | Event.fetchAllRows _ => true
  | Event.fetchOneRow => true
  | _ => false

/-- Every event of a trace comes from default resolution. -/
def DefaultEvents (l : List Event) : Prop :=
  ∀ e ∈ l, e.isDefaultResolution = true

/-- A minimal concrete compiled INSERT used by the witnesses. -/
def baseCompiled : SQLCompiler where
  string := "INSERT INTO t (a) VALUES (?)"
  positional := true
  positiontup := ["a"]
  isinsert := true
  isupdate := false
  isdelete := false
  isplaintext := false
  stmt_kind := StmtKind.other
  stmt_returning := false
  implicit_returning := false
  insert_prefetch := []
  update_prefetch := []
  _bind_processors := fun _ => Option.none
  literal_execute_params := false
  post_compile_params := false
  postfetch_lastrowid := false
  construct_params := fun m _ => m.getD emptyParams
  _process_parameters_for_postcompile := fun _ =>
    { statement := "", processors := fun _ => Option.none, positiontup := [] }
  schema_translates := Option.none
  _inserted_primary_key_from_lastrowid_getter := lastrowidGetterIdName
  _inserted_primary_key_from_returning_getter := fun row _ => row

/-- A dialect with no server-side cursor support. -/
def baseDialect : Dialect where
  supports_server_side_cursors := false
  server_side_cursors := false

/-- Empty execution options. -/
def baseEO : ExecutionOptions where
  stream_results := Option.none

/-- A driver reply with no rows. -/
def baseReply : DriverReply where
  rows := []
  lastrowid := Value.none
  metadataReturnsRows := false

/-- A placeholder context (never reached by the witnesses). -/
def fallbackCtx : Ctx where
  compiled_parameters := []
  parameters := []
  executemany := false
  unicode_statement := ""
  _is_server_side := false
  _is_implicit_returning := false
  _is_explicit_returning := false

/-- The context of a successful construction (fallback otherwise). -/
def okCtxOf (x : Except SAErr Ctx) : Ctx :=
  match x with
  | Except.ok c => c
  | Except.error _ => fallbackCtx

/-- Concrete compiled statement for the C1 witness: two positional
slots, an encoder on the second. -/
def c1compiled : SQLCompiler :=
  { baseCompiled with
      positiontup := ["a", "b"],
      _bind_processors := fun k =>
        if k = "b" then some (fun _ => Value.str "enc") else Option.none }

/-- Two concrete parameter groups for the C1 witness. -/
def c1params : List ParamGroup := [fun _ => Value.int 1, fun _ => Value.int 2]

/-- The C1 witness construction run. -/
def c1run : Except SAErr Ctx × Nat × List Event :=
  _init_compiled baseEO c1compiled c1params baseDialect 0

/-- The C1 witness context. -/
def c1ctx : Ctx := okCtxOf c1run.1

/-!
Frame property of prefetch-default resolution (claim C9): a key whose
value changes belongs to a prefetch column, and a changed value is
never `Value.none` (the no-value sentinel is never written).
-/
/-- `q` differs from `p` only on keys of `keys`, and never by writing
`Value.none`. -/
def FrameResolved (keys : List String) (p q : ParamGroup) : Prop :=
  ∀ k, q k ≠ p k → k ∈ keys ∧ q k ≠ Value.none

/-!
Hoisting analysis of `_process_executemany_defaults` (claim C6): the
`scalar_defaults` dictionary lookup agrees with the per-column scalar
test whenever prefetch-column keys are distinct, so the hoisted pass is
observably identical to the no-hoisting pass.
-/
/-- The scalar INSERT default of a column, when it has one. -/
def scalarArgIns (c : Column) : Option Value :=
  match c.default with
  | some (ColDefault.scalar v) => some v
  | _ => Option.none

/-- The scalar ON UPDATE default of a column, when it has one. -/
def scalarArgUpd (c : Column) : Option Value :=
  match c.onupdate with
  | some (ColDefault.scalar v) => some v
  | _ => Option.none

/-- One dictionary entry per column whose extraction yields a value. -/
def entryFn (g : Column → Option Value) : Column → Option (String × Value) :=
  fun c =>
    match g c with
    | some v => some (c.key, v)
    | Option.none => Option.none

/-- The shared counter callable used by the C6 counterexample: it
returns the current counter value and increments it, so the produced
values record the global invocation order. -/
def c6fn : ParamGroup → Nat → Value × Nat := fun _ n => (Value.int n, n + 1)

/-- Two insert-prefetch columns with non-scalar (callable) defaults. -/
def c6cols : List Column :=
  [⟨"c1", some (ColDefault.callable c6fn), Option.none⟩,
   ⟨"c2", some (ColDefault.callable c6fn), Option.none⟩]

/-- Columns for the C6 witness: one hoisted scalar column and one
callable column, with distinct keys. -/
def c6wcols : List Column :=
  [⟨"s", some (ColDefault.scalar (Value.int 9)), Option.none⟩,
   ⟨"c", some (ColDefault.callable c6fn), Option.none⟩]

/-- Compiled statement for the C8 witness: a SELECT-like construct
whose text opens with a WITH clause. -/
def c8compiled : SQLCompiler :=
  { baseCompiled with
      isinsert := false,
      stmt_kind := StmtKind.selectable,
      string := "WITH ids AS (SELECT 1 AS x) SELECT x FROM ids" }

/-- The C8 witness construction run, on a dialect with the legacy
server-side toggle set and no `stream_results` option. -/
def c8run : Except SAErr Ctx × Nat × List Event :=
  _init_compiled ⟨Option.none⟩ c8compiled [emptyParams] ⟨true, true⟩ 0

/-- The C8 witness context. -/
def c8ctx : Ctx := okCtxOf c8run.1

/-- Sequential per-row invocation of one callable default over a batch:
the i-th produced value comes from the i-th group, with the effect
state threaded in row order. -/
def callableRun (fn : ParamGroup → Nat → Value × Nat) :
    List ParamGroup → Nat → List Value × Nat
  | [], st => ([], st)
  | p :: rest, st =>
      let a := fn p st
      let b := callableRun fn rest a.2
      (a.1 :: b.1, b.2)

/-- A fallback DML result (never reached by the witnesses). -/
def fallbackDML : DMLResult where
  result := { rows := [], pos := 0, soft_closed := false }
  inserted_primary_key_rows := Option.none
  returned_default_rows := Option.none

/-- The context/result pair of a successful run (fallback otherwise). -/
def okPairOf (x : Except SAErr (Ctx × DMLResult)) : Ctx × DMLResult :=
  match x with
  | Except.ok p => p
  | Except.error _ => (fallbackCtx, fallbackDML)

/-- Compiled single-row INSERT for the C4 witness: lastrowid-based
primary key retrieval on table `(id AUTOINCREMENT PK, name TEXT)`. -/
def c4compiled : SQLCompiler := { baseCompiled with postfetch_lastrowid := true }

/-- The one inserted row of the C4 witness scenario. -/
def c4params : List ParamGroup :=
  [fun key => if key = "name" then Value.str "a" else Value.none]

/-- Driver reply of the C4 witness: lastrowid 7, no result rows. -/
def c4reply : DriverReply where
  rows := []
  lastrowid := Value.int 7
  metadataReturnsRows := false

/-- The C4 witness execution run. -/
def c4run : Except SAErr (Ctx × DMLResult) × Nat × List Event :=
  runCompiledDML baseEO c4compiled c4params baseDialect 0 c4reply

/-- The C4 witness context/result pair. -/
def c4pair : Ctx × DMLResult := okPairOf c4run.1

/-- Compiled single-row INSERT for the C3 witness: implicit RETURNING
in play, the returning getter reads the primary key off the row. -/
def c3compiled : SQLCompiler := { baseCompiled with implicit_returning := true }

/-- The one inserted row of the C3 witness scenario. -/
def c3params : List ParamGroup :=
  [fun key => if key = "name" then Value.str "a" else Value.none]

/-- Driver reply of the C3 witness: one RETURNING row `[5]`. -/
def c3reply : DriverReply where
  rows := [[Value.int 5]]
  lastrowid := Value.none
  metadataReturnsRows := true

/-- The C3 witness execution run. -/
def c3run : Except SAErr (Ctx × DMLResult) × Nat × List Event :=
  runCompiledDML baseEO c3compiled c3params baseDialect 0 c3reply

/-- The C3 witness context/result pair. -/
def c3pair : Ctx × DMLResult := okPairOf c3run.1

/-- The counter callable of the C5 witness. -/
def c5wfn : ParamGroup → Nat → Value × Nat := fun _ n => (Value.int n, n + 1)

/-- Compiled INSERT for the C5 witness: one prefetch column with the
counter callable default. -/
def c5compiled : SQLCompiler :=
  { baseCompiled with
      insert_prefetch := [⟨"ts", some (ColDefault.callable c5wfn), Option.none⟩] }

/-- Three parameter groups for the C5 witness. -/
def c5params : List ParamGroup := [emptyParams, emptyParams, emptyParams]

theorem defaultEvents_nil : DefaultEvents [] := by
  intro e he; cases he

theorem defaultEvents_append {l1 l2 : List Event} (h1 : DefaultEvents l1)
    (h2 : DefaultEvents l2) : DefaultEvents (l1 ++ l2) := by
  intro e he
  rcases List.mem_append.1 he with h | h
  · exact h1 e h
  · exact h2 e h

theorem _exec_default_events (c : Column) (d : ColDefault)
    (current : ParamGroup) (st : Nat) :
    DefaultEvents (_exec_default c d current st).2.2 := by
  cases d <;> simp [DefaultEvents, _exec_default, Event.isDefaultResolution]

theorem get_insert_default_events (c : Column) (current : ParamGroup)
    (st : Nat) : DefaultEvents (get_insert_default c current st).2.2 := by
  unfold get_insert_default
  cases c.default
  · exact defaultEvents_nil
  · exact _exec_default_events _ _ _ _

theorem get_update_default_events (c : Column) (current : ParamGroup)
    (st : Nat) : DefaultEvents (get_update_default c current st).2.2 := by
  unfold get_update_default
  cases c.onupdate
  · exact defaultEvents_nil
  · exact _exec_default_events _ _ _ _

theorem emColsInsert_events (sd : String → Option Value) (cols : List Column) :
    ∀ param st, DefaultEvents (emColsInsert sd cols param st).2.2 := by
  induction cols with
  | nil => intro param st; exact defaultEvents_nil
  | cons c rest ih =>
      intro param st
      simp only [emColsInsert]
      cases hsd : sd c.key with
      | none =>
          simp only [hsd]
          exact defaultEvents_append (get_insert_default_events _ _ _) (ih _ _)
      | some v =>
          simp only [hsd]
          exact defaultEvents_append defaultEvents_nil (ih _ _)

theorem emColsUpdate_events (sd : String → Option Value) (cols : List Column) :
    ∀ param st, DefaultEvents (emColsUpdate sd cols param st).2.2 := by
  induction cols with
  | nil => intro param st; exact defaultEvents_nil
  | cons c rest ih =>
      intro param st
      simp only [emColsUpdate]
      cases hsd : sd c.key with
      | none =>
          simp only [hsd]
          exact defaultEvents_append (get_update_default_events _ _ _) (ih _ _)
      | some v =>
          simp only [hsd]
          exact defaultEvents_append defaultEvents_nil (ih _ _)

theorem emRow_events (sd : String → Option Value) (ip up : List Column)
    (param : ParamGroup) (st : Nat) :
    DefaultEvents (emRow sd ip up param st).2.2 :=
  defaultEvents_append (emColsInsert_events _ _ _ _) (emColsUpdate_events _ _ _ _)

theorem emRows_events (sd : String → Option Value) (ip up : List Column) :
    ∀ cps st, DefaultEvents (emRows sd ip up cps st).2.2 := by
  intro cps
  induction cps with
  | nil => intro st; exact defaultEvents_nil
  | cons p rest ih =>
      intro st
      exact defaultEvents_append (emRow_events _ _ _ _ _) (ih _)

theorem singleColsInsert_events (cols : List Column) :
    ∀ param st, DefaultEvents (singleColsInsert cols param st).2.2 := by
  induction cols with
  | nil => intro param st; exact defaultEvents_nil
  | cons c rest ih =>
      intro param st
      simp only [singleColsInsert]
      cases hd : c.default with
      | none =>
          simp only [hd]
          exact defaultEvents_append (get_insert_default_events _ _ _) (ih _ _)
      | some dd =>
          cases dd <;> simp only [hd] <;>
            exact defaultEvents_append
              (by first
                | exact defaultEvents_nil
                | exact get_insert_default_events _ _ _) (ih _ _)

theorem singleColsUpdate_events (cols : List Column) :
    ∀ param st, DefaultEvents (singleColsUpdate cols param st).2.2 := by
  induction cols with
  | nil => intro param st; exact defaultEvents_nil
  | cons c rest ih =>
      intro param st
      exact defaultEvents_append (get_update_default_events _ _ _) (ih _ _)

theorem _process_executemany_defaults_events (ip up : List Column)
    (cps : List ParamGroup) (st : Nat) :
    DefaultEvents (_process_executemany_defaults ip up cps st).2.2 :=
  emRows_events _ _ _ _ _

theorem _process_executesingle_defaults_events (ip up : List Column)
    (cps : List ParamGroup) (st : Nat) :
    DefaultEvents (_process_executesingle_defaults ip up cps st).2.2 := by
  cases cps with
  | nil => exact defaultEvents_nil
  | cons p rest =>
      exact defaultEvents_append (singleColsInsert_events _ _ _)
        (singleColsUpdate_events _ _ _)

theorem processDefaults_events (compiled : SQLCompiler) (cps : List ParamGroup)
    (em : Bool) (st : Nat) :
    DefaultEvents (processDefaults compiled cps em st).2.2 := by
  unfold processDefaults
  split
  · split
    · exact _process_executemany_defaults_events _ _ _ _
    · exact _process_executesingle_defaults_events _ _ _ _
  · exact defaultEvents_nil

theorem defaultEvents_not_driver {l : List Event} (h : DefaultEvents l) :
    ∀ e ∈ l, e.isDriverCall = false := by
  intro e he
  have := h e he
  cases e <;> simp_all [Event.isDefaultResolution, Event.isDriverCall]

theorem defaultEvents_not_lastrowid {l : List Event} (h : DefaultEvents l) :
    ∀ e ∈ l, e.isLastrowidAccess = false := by
  intro e he
  have := h e he
  cases e <;> simp_all [Event.isDefaultResolution, Event.isLastrowidAccess]

theorem defaultEvents_not_rowfetch {l : List Event} (h : DefaultEvents l) :
    ∀ e ∈ l, e.isRowFetch = false := by
  intro e he
  have := h e he
  cases e <;> simp_all [Event.isDefaultResolution, Event.isRowFetch]

theorem assembleDriverParams_length (positional : Bool)
    (procs : String → Option (Value → Value)) (ptup : List String)
    (cps : List ParamGroup) :
    (assembleDriverParams positional procs ptup cps).length = cps.length := by
  unfold assembleDriverParams
  split <;> simp

theorem emRows_length (sd : String → Option Value) (ip up : List Column) :
    ∀ cps st, (emRows sd ip up cps st).1.length = cps.length := by
  intro cps
  induction cps with
  | nil => intro st; rfl
  | cons p rest ih => intro st; simp [emRows, ih]

theorem _process_executesingle_defaults_length (ip up : List Column)
    (cps : List ParamGroup) (st : Nat) :
    (_process_executesingle_defaults ip up cps st).1.length = cps.length := by
  cases cps <;> simp [_process_executesingle_defaults]

theorem processDefaults_length (compiled : SQLCompiler) (cps : List ParamGroup)
    (em : Bool) (st : Nat) :
    (processDefaults compiled cps em st).1.length = cps.length := by
  unfold processDefaults
  split
  · split
    · exact emRows_length _ _ _ _ _
    · exact _process_executesingle_defaults_length _ _ _ _
  · rfl

theorem constructedParams_length (compiled : SQLCompiler)
    (params : List ParamGroup) :
    (constructedParams compiled params).length =
      if params.isEmpty then 1 else params.length := by
  unfold constructedParams
  split <;> simp

theorem constructedParams_ne_nil (compiled : SQLCompiler)
    (params : List ParamGroup) : constructedParams compiled params ≠ [] := by
  intro h
  have := congrArg List.length h
  rw [constructedParams_length] at this
  split at this <;> simp_all

theorem _init_compiled_ok_inv {eo : ExecutionOptions} {compiled : SQLCompiler}
    {params : List ParamGroup} {d : Dialect} {st : Nat} {ctx : Ctx}
    {st1 : Nat} {ev : List Event}
    (h : _init_compiled eo compiled params d st = (Except.ok ctx, st1, ev)) :
    ctx.compiled_parameters =
      (processDefaults compiled (constructedParams compiled params)
        (decide (1 < params.length)) st).1 ∧
    st1 = (processDefaults compiled (constructedParams compiled params)
        (decide (1 < params.length)) st).2.1 ∧
    ev = (processDefaults compiled (constructedParams compiled params)
        (decide (1 < params.length)) st).2.2 ∧
    ctx.executemany = decide (1 < params.length) ∧
    ctx._is_server_side =
      create_cursor_is_server_side d eo (some compiled.stmt_kind) compiled.string ∧
    ctx._is_implicit_returning =
      ((compiled.isinsert || compiled.isupdate || compiled.isdelete) &&
        compiled.implicit_returning) ∧
    ctx._is_explicit_returning =
      ((compiled.isinsert || compiled.isupdate || compiled.isdelete) &&
        compiled.stmt_returning) ∧
    ctx.parameters.length = ctx.compiled_parameters.length := by
  simp only [_init_compiled] at h
  split at h
  · exact absurd h (by simp)
  · split at h
    · split at h
      · exact absurd h (by simp)
      · injection h with h1 h23
        injection h23 with h2 h3
        injection h1 with h1
        subst h1 h2 h3
        exact ⟨rfl, rfl, rfl, rfl, rfl, rfl, rfl,
          assembleDriverParams_length _ _ _ _⟩
    · injection h with h1 h23
      injection h23 with h2 h3
      injection h1 with h1
      subst h1 h2 h3
      exact ⟨rfl, rfl, rfl, rfl, rfl, rfl, rfl,
        assembleDriverParams_length _ _ _ _⟩

theorem _init_compiled_ok_params {eo : ExecutionOptions} {compiled : SQLCompiler}
    {params : List ParamGroup} {d : Dialect} {st : Nat} {ctx : Ctx}
    {st1 : Nat} {ev : List Event}
    (hlit : compiled.literal_execute_params = false)
    (hpc : compiled.post_compile_params = false)
    (h : _init_compiled eo compiled params d st = (Except.ok ctx, st1, ev)) :
    ctx.parameters =
      assembleDriverParams compiled.positional compiled._bind_processors
        compiled.positiontup ctx.compiled_parameters := by
  simp only [_init_compiled, hlit, hpc, Bool.or_self, Bool.false_eq_true,
    if_false] at h
  split at h
  · exact absurd h (by simp)
  · injection h with h1 h23
    injection h1 with h1
    subst h1
    rfl

theorem driverExecute_countP_lastrowid (ctx : Ctx) :
    (driverExecute ctx).countP Event.isLastrowidAccess = 0 := by
  unfold driverExecute
  split <;> rfl

theorem driverExecute_countP_rowfetch (ctx : Ctx) :
    (driverExecute ctx).countP Event.isRowFetch = 0 := by
  unfold driverExecute
  split <;> rfl

theorem countP_eq_zero_of_defaultEvents {l : List Event} (h : DefaultEvents l) :
    l.countP Event.isLastrowidAccess = 0 ∧ l.countP Event.isRowFetch = 0 := by
  constructor
  · exact List.countP_eq_zero.2 (by
      intro e he
      simp [defaultEvents_not_lastrowid h e he])
  · exact List.countP_eq_zero.2 (by
      intro e he
      simp [defaultEvents_not_rowfetch h e he])

/-- C1: on a positional dialect, with no expanding and no
literal_execute binds, every driver-ready parameter sequence built by
`_init_compiled` is exactly the `positiontup`-ordered list of the
(possibly processor-encoded) values bound to the positional slots: same
length as `positiontup`, i-th element from the i-th slot key, no
reordering, no dropped or extra slots. -/
theorem c1_positional_sequences_follow_positiontup
    (eo : ExecutionOptions) (compiled : SQLCompiler) (params : List ParamGroup)
    (d : Dialect) (st : Nat) (ctx : Ctx) (st1 : Nat) (ev : List Event)
    (hpos : compiled.positional = true)
    (hlit : compiled.literal_execute_params = false)
    (hpc : compiled.post_compile_params = false)
    (hok : _init_compiled eo compiled params d st = (Except.ok ctx, st1, ev)) :
    List.Forall₂
      (fun cp dp => dp = DriverParams.positional
        (compiled.positiontup.map fun key =>
          applyProc compiled._bind_processors key (cp key)))
      ctx.compiled_parameters ctx.parameters ∧
    ∀ dp ∈ ctx.parameters, ∃ l, dp = DriverParams.positional l ∧
      l.length = compiled.positiontup.length := by
  have hp := _init_compiled_ok_params hlit hpc hok
  rw [hp]
  unfold assembleDriverParams
  rw [hpos]
  simp only [if_true]
  constructor
  · exact (List.forall₂_map_right_iff).2 (List.forall₂_same.2 fun a _ => rfl)
  · intro dp hdp
    rcases List.mem_map.1 hdp with ⟨cp, _, rfl⟩
    exact ⟨_, rfl, by simp⟩

/-- C1 witness: a concrete two-slot positional INSERT with one encoder,
two parameter groups. -/
theorem c1_witness :
    c1compiled.positional = true ∧
    ∃ st1 ev,
      _init_compiled baseEO c1compiled c1params baseDialect 0 =
        (Except.ok c1ctx, st1, ev) ∧
      List.Forall₂
        (fun cp dp => dp = DriverParams.positional
          (c1compiled.positiontup.map fun key =>
            applyProc c1compiled._bind_processors key (cp key)))
        c1ctx.compiled_parameters c1ctx.parameters := by
  have hok : _init_compiled baseEO c1compiled c1params baseDialect 0 =
      (Except.ok c1ctx, c1run.2.1, c1run.2.2) := rfl
  exact ⟨rfl, c1run.2.1, c1run.2.2, hok,
    (c1_positional_sequences_follow_positiontup _ _ _ _ _ _ _ _
      rfl rfl rfl hok).1⟩

/-- C2: a compiled statement carrying literal_execute or post-compile
(expanding) parameters, given more than one parameter group, makes the
whole execution fail with InvalidRequestError during construction: the
trace contains no `do_execute` and no `do_executemany` driver call. -/
theorem c2_literal_or_expanding_with_executemany_rejected
    (eo : ExecutionOptions) (compiled : SQLCompiler) (params : List ParamGroup)
    (d : Dialect) (st : Nat) (reply : DriverReply)
    (hpost : (compiled.literal_execute_params || compiled.post_compile_params) = true)
    (hmulti : 1 < params.length)
    (hassert : (compiled.implicit_returning && compiled.stmt_returning) = false) :
    ∃ msg st1 ev,
      runCompiledDML eo compiled params d st reply =
        (Except.error (SAErr.invalidRequest msg), st1, ev) ∧
      ∀ e ∈ ev, e.isDriverCall = false := by
  have hA : ((compiled.isinsert || compiled.isupdate || compiled.isdelete) &&
      compiled.implicit_returning && compiled.stmt_returning) = false := by
    rw [Bool.and_assoc, hassert, Bool.and_false]
  have hem : decide (1 < params.length) = true := decide_eq_true hmulti
  have hinit : _init_compiled eo compiled params d st =
      (Except.error (SAErr.invalidRequest
        "literal_execute or expanding parameters cannot be used with executemany()"),
        (processDefaults compiled (constructedParams compiled params)
          (decide (1 < params.length)) st).2.1,
        (processDefaults compiled (constructedParams compiled params)
          (decide (1 < params.length)) st).2.2) := by
    simp only [_init_compiled, hA, hpost, hem, Bool.false_eq_true, if_false,
      if_true]
  refine ⟨"literal_execute or expanding parameters cannot be used with executemany()",
    (processDefaults compiled (constructedParams compiled params)
      (decide (1 < params.length)) st).2.1,
    (processDefaults compiled (constructedParams compiled params)
      (decide (1 < params.length)) st).2.2, ?_, ?_⟩
  · simp only [runCompiledDML, hinit]
  · exact defaultEvents_not_driver (processDefaults_events _ _ _ _)

/-- C2 witness: two parameter groups against a compiled statement with
post-compile (expanding) parameters. -/
theorem c2_witness :
    ({ baseCompiled with post_compile_params := true }.literal_execute_params ||
      { baseCompiled with post_compile_params := true }.post_compile_params) = true ∧
    1 < ([fun _ => Value.int 1, fun _ => Value.int 2] : List ParamGroup).length ∧
    ∃ msg st1 ev,
      runCompiledDML baseEO { baseCompiled with post_compile_params := true }
        [fun _ => Value.int 1, fun _ => Value.int 2] baseDialect 0 baseReply =
        (Except.error (SAErr.invalidRequest msg), st1, ev) ∧
      ∀ e ∈ ev, e.isDriverCall = false :=
  ⟨rfl, by decide,
    c2_literal_or_expanding_with_executemany_rejected _ _ _ _ _ _
      rfl (by decide) rfl⟩

theorem runCompiledDML_ok_inv {eo : ExecutionOptions} {compiled : SQLCompiler}
    {params : List ParamGroup} {d : Dialect} {st : Nat} {reply : DriverReply}
    {ctx : Ctx} {dml : DMLResult} {st1 : Nat} {ev : List Event}
    (h : runCompiledDML eo compiled params d st reply =
      (Except.ok (ctx, dml), st1, ev)) :
    ∃ ev0, _init_compiled eo compiled params d st = (Except.ok ctx, st1, ev0) ∧
      dml = (_setup_dml_or_text_result compiled ctx reply.rows reply.lastrowid
        reply.metadataReturnsRows).1 ∧
      ev = ev0 ++ driverExecute ctx ++
        (_setup_dml_or_text_result compiled ctx reply.rows reply.lastrowid
          reply.metadataReturnsRows).2 := by
  rcases hinit : _init_compiled eo compiled params d st with ⟨res, st2, ev2⟩
  cases res with
  | error e =>
      rw [runCompiledDML, hinit] at h
      exact absurd h (by simp)
  | ok ctx0 =>
      rw [runCompiledDML, hinit] at h
      simp only at h
      injection h with h1 h23
      injection h23 with h2 h3
      injection h1 with h1
      injection h1 with ha hb
      subst ha hb h2 h3
      exact ⟨ev2, rfl, rfl, rfl⟩

/-- C4: with `postfetch_lastrowid` set on a compiled single-row INSERT
and no RETURNING in play, the whole execution accesses the dialect's
last-row-id hook exactly once, and the generated primary-key rows are
the one-element list obtained by applying the compiled statement's
lastrowid getter to the driver lastrowid together with the first
compiled parameter group. -/
theorem c4_lastrowid_strategy_single_access
    (eo : ExecutionOptions) (compiled : SQLCompiler) (params : List ParamGroup)
    (d : Dialect) (st : Nat) (reply : DriverReply) (ctx : Ctx)
    (dml : DMLResult) (st1 : Nat) (ev : List Event)
    (hins : compiled.isinsert = true)
    (hpl : compiled.postfetch_lastrowid = true)
    (himp : compiled.implicit_returning = false)
    (hexp : compiled.stmt_returning = false)
    (hone : params.length ≤ 1)
    (hrun : runCompiledDML eo compiled params d st reply =
      (Except.ok (ctx, dml), st1, ev)) :
    ev.countP Event.isLastrowidAccess = 1 ∧
    dml.inserted_primary_key_rows =
      some [compiled._inserted_primary_key_from_lastrowid_getter
        (some reply.lastrowid) (ctx.compiled_parameters.headD emptyParams)] := by
  obtain ⟨ev0, hinit, hdml, hev⟩ := runCompiledDML_ok_inv hrun
  obtain ⟨hcps, hst1, hev0, hem, hss, himpl0, hexp0, hlen⟩ :=
    _init_compiled_ok_inv hinit
  have himplF : ctx._is_implicit_returning = false := by
    rw [himpl0, himp, Bool.and_false]
  have hexpF : ctx._is_explicit_returning = false := by
    rw [hexp0, hexp, Bool.and_false]
  have hsetup : _setup_dml_or_text_result compiled ctx reply.rows
      reply.lastrowid reply.metadataReturnsRows =
      ({ result := CursorResult.soft_close
            { rows := reply.rows, pos := 0, soft_closed := false },
         inserted_primary_key_rows :=
           some [compiled._inserted_primary_key_from_lastrowid_getter
             (some reply.lastrowid) (ctx.compiled_parameters.headD emptyParams)],
         returned_default_rows := Option.none },
        [Event.getLastrowid reply.lastrowid]) := by
    simp [_setup_dml_or_text_result, hins, hpl, himplF, hexpF,
      _setup_ins_pk_from_lastrowid]
  refine ⟨?_, ?_⟩
  · rw [hev, hsetup]
    rw [List.countP_append, List.countP_append]
    rw [hev0]
    rw [(countP_eq_zero_of_defaultEvents (processDefaults_events _ _ _ _)).1]
    rw [driverExecute_countP_lastrowid]
    rfl
  · rw [hdml, hsetup]

/-- C3: under the implicit-RETURNING strategy for an INSERT, the
generated keys come from one fetch-all pass over the driver rows
(exactly one row-fetch round trip in the whole trace), one primary-key
row per parameter group is derived by zipping the rows positionally
with the compiled parameter groups through the returning getter, and
the result is soft-closed, so a subsequent `fetchone` fails with the
already-closed condition instead of returning data. -/
theorem c3_implicit_returning_one_pass_then_soft_close
    (eo : ExecutionOptions) (compiled : SQLCompiler) (params : List ParamGroup)
    (d : Dialect) (st : Nat) (reply : DriverReply) (ctx : Ctx)
    (dml : DMLResult) (st1 : Nat) (ev : List Event)
    (hins : compiled.isinsert = true)
    (himp : compiled.implicit_returning = true)
    (hpl : compiled.postfetch_lastrowid = false)
    (hrun : runCompiledDML eo compiled params d st reply =
      (Except.ok (ctx, dml), st1, ev))
    (hlen : reply.rows.length = ctx.compiled_parameters.length) :
    dml.inserted_primary_key_rows =
      some ((reply.rows.zip ctx.compiled_parameters).map fun rp =>
        compiled._inserted_primary_key_from_returning_getter rp.1 rp.2) ∧
    (reply.rows.zip ctx.compiled_parameters).length =
      ctx.compiled_parameters.length ∧
    dml.returned_default_rows = some reply.rows ∧
    ev.countP Event.isRowFetch = 1 ∧
    dml.result.soft_closed = true ∧
    (dml.result.fetchone).1 = Except.error SAErr.resourceClosed := by
  obtain ⟨ev0, hinit, hdml, hev⟩ := runCompiledDML_ok_inv hrun
  obtain ⟨hcps, hst1, hev0, hem, hss, himpl0, hexp0, hlenp⟩ :=
    _init_compiled_ok_inv hinit
  have himplT : ctx._is_implicit_returning = true := by
    rw [himpl0, hins, himp]
    rfl
  have hcpsne : ctx.compiled_parameters ≠ [] := by
    rw [hcps]
    intro hnil
    have := congrArg List.length hnil
    rw [processDefaults_length] at this
    exact constructedParams_ne_nil compiled params (List.length_eq_zero.1 this)
  have hrowsne : reply.rows.isEmpty = false := by
    rcases hr : reply.rows with _ | ⟨a, b⟩
    · rw [hr] at hlen
      exact absurd (List.length_eq_zero.1 hlen.symm) hcpsne
    · rfl
  have hsetup : _setup_dml_or_text_result compiled ctx reply.rows
      reply.lastrowid reply.metadataReturnsRows =
      ({ result := CursorResult.soft_close
            { rows := reply.rows, pos := reply.rows.length,
              soft_closed := false },
         inserted_primary_key_rows :=
           some ((reply.rows.zip ctx.compiled_parameters).map fun rp =>
             compiled._inserted_primary_key_from_returning_getter rp.1 rp.2),
         returned_default_rows := some reply.rows },
        [Event.fetchAllRows reply.rows.length]) := by
    simp [_setup_dml_or_text_result, hins, hpl, himplT, CursorResult.all,
      _setup_ins_pk_from_implicit_returning, hrowsne]
  refine ⟨by rw [hdml, hsetup], ?_, by rw [hdml, hsetup], ?_, ?_, ?_⟩
  · rw [List.length_zip, hlen, Nat.min_self]
  · rw [hev, hsetup]
    rw [List.countP_append, List.countP_append]
    rw [hev0]
    rw [(countP_eq_zero_of_defaultEvents (processDefaults_events _ _ _ _)).2]
    rw [driverExecute_countP_rowfetch]
    rfl
  · rw [hdml, hsetup]
    rfl
  · rw [hdml, hsetup]
    rfl

theorem lowerCode_idem (n : Nat) : lowerCode (lowerCode n) = lowerCode n := by
  unfold lowerCode
  split_ifs <;> omega

theorem map_eq_self_mem {f : Nat → Nat} :
    ∀ {l : List Nat}, l.map f = l → ∀ c ∈ l, f c = c := by
  intro l
  induction l with
  | nil => intro _ c hc; cases hc
  | cons a t ih =>
      intro h c hc
      rw [List.map_cons, List.cons.injEq] at h
      rcases List.mem_cons.1 hc with rfl | hc
      · exact h.1
      · exact ih h.2 c hc

theorem chars_mk (l : List Nat) (q : Option Bool) :
    (SAName.mk l q).chars = l := rfl

theorem lowered_plain (l : List Nat) :
    (SAName.mk l Option.none).lowered = ⟨l.map lowerCode, Option.none⟩ := by
  simp [SAName.lowered]

theorem uppered_plain (l : List Nat) :
    (SAName.mk l Option.none).uppered = ⟨l.map upperCode, Option.none⟩ := by
  simp [SAName.uppered]

theorem lowered_quoted (l : List Nat) :
    (SAName.mk l (some true)).lowered = ⟨l, some true⟩ := by
  simp [SAName.lowered]

theorem uppered_quoted (l : List Nat) :
    (SAName.mk l (some true)).uppered = ⟨l, some true⟩ := by
  simp [SAName.uppered]

/-- C10: both identifier-normalization operations map a missing (None)
name to None instead of raising. -/
theorem c10_normalize_denormalize_accept_none (rq : List Nat → Bool) :
    normalize_name rq Option.none = Option.none ∧
    denormalize_name rq Option.none = Option.none :=
  ⟨rfl, rfl⟩

/-- C7: `denormalize_name` is a left inverse of `normalize_name` (up to
string content, which is what Python `==` compares) on identifiers made
of case-foldable ASCII letters whose lower-cased form does not require
quoting: all-uppercase names fold to lowercase and back, all-lowercase
names are force-quote-marked and survive unchanged, mixed-case and
caseless names pass through. -/
theorem c7_normalize_denormalize_roundtrip (rq : List Nat → Bool)
    (s : List Nat) (hletters : ∀ c ∈ s, isAsciiLetter c)
    (hrq : rq (s.map lowerCode) = false) :
    ∃ y : SAName,
      denormalize_name rq (normalize_name rq (some ⟨s, Option.none⟩)) =
        some y ∧
      y.chars = s := by
  have hrqF : ¬ (rq (s.map lowerCode) = true) := by
    rw [hrq]
    exact Bool.false_ne_true
  by_cases hUL : s.map upperCode = s.map lowerCode
  · refine ⟨⟨s, Option.none⟩, ?_, rfl⟩
    have hnorm : normalize_name rq (some ⟨s, Option.none⟩) =
        some ⟨s, Option.none⟩ := by
      simp only [normalize_name, lowered_plain, uppered_plain, chars_mk]
      rw [if_pos hUL]
    rw [hnorm]
    simp only [denormalize_name, lowered_plain, uppered_plain, chars_mk]
    rw [if_pos hUL]
  · by_cases hU : s.map upperCode = s
    · -- all-uppercase name: normalized to lowercase, denormalized back
      have hprop : ∀ c ∈ s, upperCode c = c := map_eq_self_mem hU
      have hlowup : ∀ c ∈ s, upperCode (lowerCode c) = c := by
        intro c hc
        have h1 := hletters c hc
        have h2 := hprop c hc
        unfold isAsciiLetter at h1
        unfold lowerCode upperCode at h2 ⊢
        split_ifs at * <;> omega
      have hnorm : normalize_name rq (some ⟨s, Option.none⟩) =
          some ⟨s.map lowerCode, Option.none⟩ := by
        simp only [normalize_name, lowered_plain, uppered_plain, chars_mk]
        rw [if_neg hUL, if_pos ⟨hU, hrqF⟩]
      have hLL : (s.map lowerCode).map lowerCode = s.map lowerCode := by
        rw [List.map_map]
        exact List.map_congr_left fun c _ => lowerCode_idem c
      have hLUne : (s.map lowerCode).map upperCode ≠ s.map lowerCode := by
        intro hcontra
        rcases hs : s with _ | ⟨c, t⟩
        · exact hUL (by rw [hs]; rfl)
        · subst hs
          have hc : c ∈ c :: t := List.mem_cons_self c t
          have h1 := hletters c hc
          have h2 := hprop c hc
          have h3 : upperCode (lowerCode c) = lowerCode c :=
            map_eq_self_mem hcontra (lowerCode c)
              (List.mem_map_of_mem lowerCode hc)
          unfold isAsciiLetter at h1
          unfold lowerCode upperCode at h2 h3
          split_ifs at * <;> omega
      have hdcond1 : ¬ ((s.map lowerCode).map upperCode =
          (s.map lowerCode).map lowerCode) := by
        rw [hLL]
        exact hLUne
      have hrqF2 : ¬ (rq ((s.map lowerCode).map lowerCode) = true) := by
        rw [hLL]
        exact hrqF
      have hdenorm : denormalize_name rq (some ⟨s.map lowerCode, Option.none⟩) =
          some ⟨(s.map lowerCode).map upperCode, Option.none⟩ := by
        simp only [denormalize_name, lowered_plain, uppered_plain, chars_mk]
        rw [if_neg hdcond1, if_pos ⟨hLL, hrqF2⟩]
      refine ⟨_, by rw [hnorm, hdenorm], ?_⟩
      show (s.map lowerCode).map upperCode = s
      rw [List.map_map]
      calc s.map (upperCode ∘ lowerCode) = s.map id :=
            List.map_congr_left fun c hc => hlowup c hc
        _ = s := List.map_id s
    · by_cases hL : s.map lowerCode = s
      · -- all-lowercase name: force-quote-marked, survives unchanged
        have hc2 : ¬ (s.map upperCode = s ∧ ¬ (rq (s.map lowerCode) = true)) :=
          fun h => hU h.1
        have hnorm : normalize_name rq (some ⟨s, Option.none⟩) =
            some ⟨s, some true⟩ := by
          simp only [normalize_name, lowered_plain, uppered_plain, chars_mk]
          rw [if_neg hUL, if_neg hc2, if_pos hL]
        have hdenorm : denormalize_name rq (some ⟨s, some true⟩) =
            some ⟨s, some true⟩ := by
          simp [denormalize_name, lowered_quoted, uppered_quoted, chars_mk]
        exact ⟨_, by rw [hnorm, hdenorm], rfl⟩
      · -- mixed-case name: passes through unchanged in both directions
        have hc2 : ¬ (s.map upperCode = s ∧ ¬ (rq (s.map lowerCode) = true)) :=
          fun h => hU h.1
        have hd2 : ¬ (s.map lowerCode = s ∧ ¬ (rq (s.map lowerCode) = true)) :=
          fun h => hL h.1
        have hnorm : normalize_name rq (some ⟨s, Option.none⟩) =
            some ⟨s, Option.none⟩ := by
          simp only [normalize_name, lowered_plain, uppered_plain, chars_mk]
          rw [if_neg hUL, if_neg hc2, if_neg hL]
        have hdenorm : denormalize_name rq (some ⟨s, Option.none⟩) =
            some ⟨s, Option.none⟩ := by
          simp only [denormalize_name, lowered_plain, uppered_plain, chars_mk]
          rw [if_neg hUL, if_neg hd2]
        exact ⟨_, by rw [hnorm, hdenorm], rfl⟩

/-- C7 witness: the all-uppercase identifier "FOO" (codes 70, 79, 79)
with a requires-quotes predicate that never fires round-trips to
itself. -/
theorem c7_roundtrip_witness :
    (∀ c ∈ [70, 79, 79], isAsciiLetter c) ∧
    (fun _ : List Nat => false) ([70, 79, 79].map lowerCode) = false ∧
    ∃ y : SAName,
      denormalize_name (fun _ => false)
        (normalize_name (fun _ => false) (some ⟨[70, 79, 79], Option.none⟩)) =
        some y ∧
      y.chars = [70, 79, 79] :=
  ⟨by decide, rfl,
    c7_normalize_denormalize_roundtrip (fun _ => false) [70, 79, 79]
      (by decide) rfl⟩

theorem frameResolved_refl (keys : List String) (p : ParamGroup) :
    FrameResolved keys p p := fun _ h => absurd rfl h

theorem frameResolved_trans {keys1 keys2 : List String} {p q r : ParamGroup}
    (h1 : FrameResolved keys1 p q) (h2 : FrameResolved keys2 q r) :
    FrameResolved (keys1 ++ keys2) p r := by
  intro k hk
  by_cases hq : r k = q k
  · have hne : q k ≠ p k := by
      rw [← hq]
      exact hk
    rcases h1 k hne with ⟨hmem, hnone⟩
    exact ⟨List.mem_append_left _ hmem, by rw [hq]; exact hnone⟩
  · rcases h2 k hq with ⟨hmem, hnone⟩
    exact ⟨List.mem_append_right _ hmem, hnone⟩

/-- The guarded write `if val is not None: param[key] = val` changes at
most `k0`, and never to `Value.none`. -/
theorem frame_setStep (p : ParamGroup) (k0 : String) (v : Value) :
    FrameResolved [k0] p (if v = Value.none then p else setParam p k0 v) := by
  by_cases hv : v = Value.none
  · rw [if_pos hv]
    exact frameResolved_refl _ _
  · rw [if_neg hv]
    intro k hk
    unfold setParam at hk ⊢
    by_cases hkk : k = k0
    · subst hkk
      rw [if_pos rfl] at hk ⊢
      exact ⟨List.mem_singleton.2 rfl, hv⟩
    · rw [if_neg hkk] at hk
      exact absurd rfl hk

theorem emColsInsert_frame (sd : String → Option Value) (cols : List Column) :
    ∀ p st, FrameResolved (cols.map Column.key) p
      (emColsInsert sd cols p st).1 := by
  induction cols with
  | nil => intro p st; exact frameResolved_refl _ _
  | cons c rest ih =>
      intro p st
      cases hsd : sd c.key with
      | some v =>
          simp only [emColsInsert, hsd]
          exact frameResolved_trans (frame_setStep p c.key v) (ih _ _)
      | none =>
          simp only [emColsInsert, hsd]
          exact frameResolved_trans
            (frame_setStep p c.key (get_insert_default c p st).1) (ih _ _)

theorem emColsUpdate_frame (sd : String → Option Value) (cols : List Column) :
    ∀ p st, FrameResolved (cols.map Column.key) p
      (emColsUpdate sd cols p st).1 := by
  induction cols with
  | nil => intro p st; exact frameResolved_refl _ _
  | cons c rest ih =>
      intro p st
      cases hsd : sd c.key with
      | some v =>
          simp only [emColsUpdate, hsd]
          exact frameResolved_trans (frame_setStep p c.key v) (ih _ _)
      | none =>
          simp only [emColsUpdate, hsd]
          exact frameResolved_trans
            (frame_setStep p c.key (get_update_default c p st).1) (ih _ _)

theorem emRow_frame (sd : String → Option Value) (ip up : List Column)
    (p : ParamGroup) (st : Nat) :
    FrameResolved ((ip ++ up).map Column.key) p (emRow sd ip up p st).1 := by
  rw [List.map_append]
  exact frameResolved_trans (emColsInsert_frame _ _ _ _)
    (emColsUpdate_frame _ _ _ _)

theorem emRows_frame (sd : String → Option Value) (ip up : List Column) :
    ∀ cps st, List.Forall₂ (FrameResolved ((ip ++ up).map Column.key)) cps
      (emRows sd ip up cps st).1 := by
  intro cps
  induction cps with
  | nil => intro st; exact List.Forall₂.nil
  | cons p rest ih =>
      intro st
      exact List.Forall₂.cons (emRow_frame _ _ _ _ _) (ih _)

theorem singleColsInsert_frame (cols : List Column) :
    ∀ p st, FrameResolved (cols.map Column.key) p
      (singleColsInsert cols p st).1 := by
  induction cols with
  | nil => intro p st; exact frameResolved_refl _ _
  | cons c rest ih =>
      intro p st
      cases hd : c.default with
      | none =>
          simp only [singleColsInsert, hd]
          exact frameResolved_trans
            (frame_setStep p c.key (get_insert_default c p st).1) (ih _ _)
      | some dd =>
          cases dd with
          | scalar v =>
              simp only [singleColsInsert, hd]
              exact frameResolved_trans (frame_setStep p c.key v) (ih _ _)
          | callable fn =>
              simp only [singleColsInsert, hd]
              exact frameResolved_trans
                (frame_setStep p c.key (get_insert_default c p st).1) (ih _ _)
          | clause fn =>
              simp only [singleColsInsert, hd]
              exact frameResolved_trans
                (frame_setStep p c.key (get_insert_default c p st).1) (ih _ _)
          | sequence fn =>
              simp only [singleColsInsert, hd]
              exact frameResolved_trans
                (frame_setStep p c.key (get_insert_default c p st).1) (ih _ _)

theorem singleColsUpdate_frame (cols : List Column) :
    ∀ p st, FrameResolved (cols.map Column.key) p
      (singleColsUpdate cols p st).1 := by
  induction cols with
  | nil => intro p st; exact frameResolved_refl _ _
  | cons c rest ih =>
      intro p st
      simp only [singleColsUpdate]
      exact frameResolved_trans
        (frame_setStep p c.key (get_update_default c p st).1) (ih _ _)

/-- C9: in both the single-row and the multi-row prefetch-default pass,
every parameter-group key that changes belongs to a prefetch column
(keys outside the prefetch columns are never modified), and no key is
ever overwritten with `None` — a default resolving to `None` leaves the
group unchanged, uniformly for scalar, callable, clause-element and
sequence defaults. -/
theorem c9_default_passes_frame_and_none_sentinel (ip up : List Column)
    (cps : List ParamGroup) (st st2 : Nat) :
    List.Forall₂ (FrameResolved ((ip ++ up).map Column.key)) cps
      (_process_executemany_defaults ip up cps st).1 ∧
    List.Forall₂ (FrameResolved ((ip ++ up).map Column.key)) cps
      (_process_executesingle_defaults ip up cps st2).1 := by
  constructor
  · exact emRows_frame _ _ _ _ _
  · cases cps with
    | nil => exact List.Forall₂.nil
    | cons p rest =>
        refine List.Forall₂.cons ?_ ?_
        · rw [List.map_append]
          exact frameResolved_trans (singleColsInsert_frame _ _ _)
            (singleColsUpdate_frame _ _ _)
        · exact List.forall₂_same.2 fun a _ => frameResolved_refl _ _

theorem scalar_defaults_entries_eq (ip up : List Column) :
    scalar_defaults_entries ip up =
      ip.filterMap (entryFn scalarArgIns) ++ up.filterMap (entryFn scalarArgUpd) := by
  unfold scalar_defaults_entries
  congr 1
  · refine congrArg (List.filterMap · ip) (funext fun c => ?_)
    unfold entryFn scalarArgIns
    rcases c.default with _ | dd
    · rfl
    · cases dd <;> rfl
  · refine congrArg (List.filterMap · up) (funext fun c => ?_)
    unfold entryFn scalarArgUpd
    rcases c.onupdate with _ | dd
    · rfl
    · cases dd <;> rfl

theorem dictLookupLast_eq_none {l : List (String × Value)} {k : String}
    (h : ∀ e ∈ l, e.1 ≠ k) : dictLookupLast l k = Option.none := by
  induction l with
  | nil => rfl
  | cons e rest ih =>
      have hrest := ih fun e' he' => h e' (List.mem_cons_of_mem _ he')
      simp only [dictLookupLast, hrest]
      exact if_neg (h e (List.mem_cons_self _ _))

theorem dictLookupLast_append (l1 l2 : List (String × Value)) (k : String) :
    dictLookupLast (l1 ++ l2) k =
      (match dictLookupLast l2 k with
       | some v => some v
       | Option.none => dictLookupLast l1 k) := by
  induction l1 with
  | nil =>
      simp only [List.nil_append]
      cases dictLookupLast l2 k <;> rfl
  | cons e rest ih =>
      rw [List.cons_append]
      simp only [dictLookupLast]
      rw [ih]
      cases dictLookupLast l2 k <;> cases dictLookupLast rest k <;> rfl

/-- Keys of the entries of a generic per-column extraction. -/
theorem entry_key_mem {g : Column → Option Value} {cols : List Column}
    {e : String × Value} (he : e ∈ cols.filterMap (entryFn g)) :
    e.1 ∈ cols.map Column.key := by
  rcases List.mem_filterMap.1 he with ⟨c, hc, hg⟩
  unfold entryFn at hg
  rcases hgv : g c with _ | v
  · rw [hgv] at hg
    cases hg
  · rw [hgv] at hg
    injection hg with hg
    rw [← hg]
    exact List.mem_map_of_mem _ hc

/-- Dictionary lookup of a column's key in its own entry list, given
distinct keys: exactly the column's own extracted value. -/
theorem dict_lookup_entries (g : Column → Option Value) :
    ∀ (cols : List Column), (cols.map Column.key).Nodup → ∀ c ∈ cols,
      dictLookupLast (cols.filterMap (entryFn g)) c.key = g c := by
  intro cols
  induction cols with
  | nil => intro _ c hc; cases hc
  | cons c0 rest ih =>
      intro hnd c hc
      have hnd2 := List.nodup_cons.1 hnd
      rcases List.mem_cons.1 hc with rfl | hmem
      · have hrest : dictLookupLast (rest.filterMap (entryFn g)) c.key =
            Option.none := by
          apply dictLookupLast_eq_none
          intro e he hek
          exact hnd2.1 (hek ▸ entry_key_mem he)
        rcases hgc : g c with _ | v
        · rw [List.filterMap_cons_none (by simp [entryFn, hgc])]
          exact hrest
        · have hf : entryFn g c = some (c.key, v) := by
            simp [entryFn, hgc]
          rw [List.filterMap_cons_some hf]
          simp only [dictLookupLast]
          rw [hrest]
          simp
      · have hne : c0.key ≠ c.key := fun he =>
          hnd2.1 (he ▸ List.mem_map_of_mem Column.key hmem)
        rcases hg0 : g c0 with _ | v0
        · rw [List.filterMap_cons_none (by simp [entryFn, hg0])]
          exact ih hnd2.2 c hmem
        · have hf : entryFn g c0 = some (c0.key, v0) := by
            simp [entryFn, hg0]
          rw [List.filterMap_cons_some hf]
          simp only [dictLookupLast]
          rw [ih hnd2.2 c hmem]
          rcases hgc : g c with _ | v
          · simp [hne]
          · rfl

theorem sd_lookup_insert (ip up : List Column)
    (hnd : ((ip ++ up).map Column.key).Nodup) (c : Column) (hc : c ∈ ip) :
    dictLookupLast (scalar_defaults_entries ip up) c.key = scalarArgIns c := by
  rw [List.map_append] at hnd
  have hd3 := List.nodup_append.1 hnd
  rw [scalar_defaults_entries_eq, dictLookupLast_append]
  have hupnone : dictLookupLast (up.filterMap (entryFn scalarArgUpd)) c.key =
      Option.none := by
    apply dictLookupLast_eq_none
    intro e he hek
    exact hd3.2.2 (List.mem_map_of_mem Column.key hc) (hek ▸ entry_key_mem he)
  rw [hupnone]
  exact dict_lookup_entries scalarArgIns ip hd3.1 c hc

theorem sd_lookup_update (ip up : List Column)
    (hnd : ((ip ++ up).map Column.key).Nodup) (c : Column) (hc : c ∈ up) :
    dictLookupLast (scalar_defaults_entries ip up) c.key = scalarArgUpd c := by
  rw [List.map_append] at hnd
  have hd3 := List.nodup_append.1 hnd
  rw [scalar_defaults_entries_eq, dictLookupLast_append]
  rw [dict_lookup_entries scalarArgUpd up hd3.2.1 c hc]
  rcases hgc : scalarArgUpd c with _ | v
  · apply dictLookupLast_eq_none
    intro e he hek
    exact hd3.2.2 (hek ▸ entry_key_mem he) (List.mem_map_of_mem Column.key hc)
  · rfl

theorem emColsInsert_eq_naive (sd : String → Option Value)
    (cols : List Column) (hsd : ∀ c ∈ cols, sd c.key = scalarArgIns c) :
    ∀ p st, emColsInsert sd cols p st = emColsInsertNaive cols p st := by
  induction cols with
  | nil => intro p st; rfl
  | cons c rest ih =>
      intro p st
      have hc := hsd c (List.mem_cons_self _ _)
      have ihr := ih fun c' hc' => hsd c' (List.mem_cons_of_mem _ hc')
      rcases hd : c.default with _ | dd
      · have hn : sd c.key = Option.none := by
          rw [hc]
          unfold scalarArgIns
          rw [hd]
        simp only [emColsInsert, emColsInsertNaive, hn, ihr]
      · cases dd with
        | scalar v =>
            have hsome : sd c.key = some v := by
              rw [hc]
              unfold scalarArgIns
              rw [hd]
            have hg : get_insert_default c p st = (v, st, ([] : List Event)) := by
              unfold get_insert_default
              rw [hd]
              rfl
            simp only [emColsInsert, emColsInsertNaive, hsome, hg, ihr]
        | callable fn =>
            have hn : sd c.key = Option.none := by
              rw [hc]
              unfold scalarArgIns
              rw [hd]
            simp only [emColsInsert, emColsInsertNaive, hn, ihr]
        | clause fn =>
            have hn : sd c.key = Option.none := by
              rw [hc]
              unfold scalarArgIns
              rw [hd]
            simp only [emColsInsert, emColsInsertNaive, hn, ihr]
        | sequence fn =>
            have hn : sd c.key = Option.none := by
              rw [hc]
              unfold scalarArgIns
              rw [hd]
            simp only [emColsInsert, emColsInsertNaive, hn, ihr]

theorem emColsUpdate_eq_naive (sd : String → Option Value)
    (cols : List Column) (hsd : ∀ c ∈ cols, sd c.key = scalarArgUpd c) :
    ∀ p st, emColsUpdate sd cols p st = emColsUpdateNaive cols p st := by
  induction cols with
  | nil => intro p st; rfl
  | cons c rest ih =>
      intro p st
      have hc := hsd c (List.mem_cons_self _ _)
      have ihr := ih fun c' hc' => hsd c' (List.mem_cons_of_mem _ hc')
      rcases hd : c.onupdate with _ | dd
      · have hn : sd c.key = Option.none := by
          rw [hc]
          unfold scalarArgUpd
          rw [hd]
        simp only [emColsUpdate, emColsUpdateNaive, hn, ihr]
      · cases dd with
        | scalar v =>
            have hsome : sd c.key = some v := by
              rw [hc]
              unfold scalarArgUpd
              rw [hd]
            have hg : get_update_default c p st = (v, st, ([] : List Event)) := by
              unfold get_update_default
              rw [hd]
              rfl
            simp only [emColsUpdate, emColsUpdateNaive, hsome, hg, ihr]
        | callable fn =>
            have hn : sd c.key = Option.none := by
              rw [hc]
              unfold scalarArgUpd
              rw [hd]
            simp only [emColsUpdate, emColsUpdateNaive, hn, ihr]
        | clause fn =>
            have hn : sd c.key = Option.none := by
              rw [hc]
              unfold scalarArgUpd
              rw [hd]
            simp only [emColsUpdate, emColsUpdateNaive, hn, ihr]
        | sequence fn =>
            have hn : sd c.key = Option.none := by
              rw [hc]
              unfold scalarArgUpd
              rw [hd]
            simp only [emColsUpdate, emColsUpdateNaive, hn, ihr]

/-- C6 counterexample: on a two-column, two-row batch the source pass
interleaves the columns within each row (row loop outer), producing the
invocation order c1, c2, c1, c2, while the claimed per-column-outer
order would be c1, c1, c2, c2 — the two traces differ, so multi-row
default resolution is not evaluated with the per-column loop outer. -/
theorem c6_counterexample :
    (_process_executemany_defaults c6cols [] [emptyParams, emptyParams] 0).2.2 =
      [Event.defaultCallable "c1" (Value.int 0),
       Event.defaultCallable "c2" (Value.int 1),
       Event.defaultCallable "c1" (Value.int 2),
       Event.defaultCallable "c2" (Value.int 3)] ∧
    (emColumnOuterInsert (dictLookupLast (scalar_defaults_entries c6cols []))
        c6cols [emptyParams, emptyParams] 0).2.2 =
      [Event.defaultCallable "c1" (Value.int 0),
       Event.defaultCallable "c1" (Value.int 1),
       Event.defaultCallable "c2" (Value.int 2),
       Event.defaultCallable "c2" (Value.int 3)] ∧
    (_process_executemany_defaults c6cols [] [emptyParams, emptyParams] 0).2.2 ≠
      (emColumnOuterInsert (dictLookupLast (scalar_defaults_entries c6cols []))
        c6cols [emptyParams, emptyParams] 0).2.2 := by
  refine ⟨rfl, rfl, ?_⟩
  decide

/-- C6 (amended): multi-row default resolution runs with the row loop
outer and the column loop inner; columns with static scalar defaults
are hoisted by pre-computing their values in the `scalar_defaults`
dictionary before the loops, and — whenever the prefetch columns carry
distinct parameter keys — this hoisting changes nothing observable: the
hoisted pass produces exactly the same parameter groups, final effect
state and side-effect trace as the no-hoisting pass that evaluates
every default once per row, in row order. -/
theorem c6_hoisting_is_observably_pure (ip up : List Column)
    (hnd : ((ip ++ up).map Column.key).Nodup)
    (cps : List ParamGroup) (st : Nat) :
    _process_executemany_defaults ip up cps st = emRowsNaive ip up cps st := by
  have hsdi : ∀ c ∈ ip,
      dictLookupLast (scalar_defaults_entries ip up) c.key = scalarArgIns c :=
    fun c hc => sd_lookup_insert ip up hnd c hc
  have hsdu : ∀ c ∈ up,
      dictLookupLast (scalar_defaults_entries ip up) c.key = scalarArgUpd c :=
    fun c hc => sd_lookup_update ip up hnd c hc
  have hrow : ∀ p st0, emRow (dictLookupLast (scalar_defaults_entries ip up))
      ip up p st0 = emRowNaive ip up p st0 := by
    intro p st0
    unfold emRow emRowNaive
    simp only [emColsInsert_eq_naive _ _ hsdi, emColsUpdate_eq_naive _ _ hsdu]
  unfold _process_executemany_defaults
  induction cps generalizing st with
  | nil => rfl
  | cons p rest ih =>
      simp only [emRows, emRowsNaive, hrow, ih]

/-- C6 witness: on a two-row batch over `c6wcols` the hoisted pass
equals the no-hoisting pass. -/
theorem c6_hoisting_witness :
    (((c6wcols ++ ([] : List Column)).map Column.key).Nodup) ∧
    _process_executemany_defaults c6wcols [] [emptyParams, emptyParams] 0 =
      emRowsNaive c6wcols [] [emptyParams, emptyParams] 0 :=
  ⟨by decide,
    c6_hoisting_is_observably_pure c6wcols [] (by decide)
      [emptyParams, emptyParams] 0⟩

theorem create_cursor_decision_characterization (d : Dialect)
    (eo : ExecutionOptions) (k : StmtKind) (stmt : String) :
    create_cursor_is_server_side d eo (some k) stmt =
      (d.supports_server_side_cursors &&
        (eo.stream_results.getD false ||
          (d.server_side_cursors && (eo.stream_results.getD true &&
            ((k = StmtKind.selectable) ||
              ((k = StmtKind.textclause) && stmt ≠ "" &&
                matchesServerSideCursorRe stmt)))))) := by
  cases hs : d.supports_server_side_cursors <;>
    cases hl : d.server_side_cursors <;>
      simp [create_cursor_is_server_side, _use_server_side_cursor, hs, hl]

/-- C8 counterexample: a compiled `Selectable` whose rendered text
starts with a WITH clause — the code (legacy toggle set, option unset)
creates a server-side cursor, while the claimed condition (capability
AND (stream_results OR legacy toggle AND SELECT-text heuristic))
says buffered, so the claimed iff is false. -/
theorem c8_counterexample :
    create_cursor_is_server_side ⟨true, true⟩ ⟨Option.none⟩
      (some StmtKind.selectable)
      "WITH ids AS (SELECT 1 AS x) SELECT x FROM ids" = true ∧
    claimServerSideCond ⟨true, true⟩ ⟨Option.none⟩
      "WITH ids AS (SELECT 1 AS x) SELECT x FROM ids" = false := by
  constructor
  · rfl
  · rfl

/-- C8 (amended): for every successfully constructed compiled-statement
context, the `_is_server_side` flag — computed exactly once by
`create_cursor` at construction and never changed afterwards in this
functional model — is true iff the dialect supports server-side cursors
AND (the `stream_results` option is true, OR the legacy dialect-wide
toggle is set AND `stream_results` is not explicitly false AND (the
compiled statement is a `Selectable` construct OR it is a `TextClause`
whose nonempty text matches the SELECT-only heuristic)). -/
theorem c8_server_side_cursor_decision (eo : ExecutionOptions)
    (compiled : SQLCompiler) (params : List ParamGroup) (d : Dialect)
    (st : Nat) (ctx : Ctx) (st1 : Nat) (ev : List Event)
    (hok : _init_compiled eo compiled params d st = (Except.ok ctx, st1, ev)) :
    ctx._is_server_side =
      (d.supports_server_side_cursors &&
        (eo.stream_results.getD false ||
          (d.server_side_cursors && (eo.stream_results.getD true &&
            ((compiled.stmt_kind = StmtKind.selectable) ||
              ((compiled.stmt_kind = StmtKind.textclause) &&
                compiled.string ≠ "" &&
                matchesServerSideCursorRe compiled.string)))))) := by
  rw [(_init_compiled_ok_inv hok).2.2.2.2.1]
  exact create_cursor_decision_characterization d eo compiled.stmt_kind
    compiled.string

/-- C8 witness: the amended decision formula evaluated on the concrete
context (server-side is chosen through the `Selectable` disjunct). -/
theorem c8_decision_witness :
    _init_compiled ⟨Option.none⟩ c8compiled [emptyParams] ⟨true, true⟩ 0 =
      (Except.ok c8ctx, c8run.2.1, c8run.2.2) ∧
    c8ctx._is_server_side =
      ((true : Bool) &&
        (((Option.none : Option Bool)).getD false ||
          ((true : Bool) && (((Option.none : Option Bool)).getD true &&
            ((c8compiled.stmt_kind = StmtKind.selectable) ||
              ((c8compiled.stmt_kind = StmtKind.textclause) &&
                c8compiled.string ≠ "" &&
                matchesServerSideCursorRe c8compiled.string)))))) ∧
    c8ctx._is_server_side = true := by
  have hok : _init_compiled ⟨Option.none⟩ c8compiled [emptyParams]
      ⟨true, true⟩ 0 = (Except.ok c8ctx, c8run.2.1, c8run.2.2) := rfl
  exact ⟨hok,
    c8_server_side_cursor_decision _ _ _ _ _ _ _ _ hok, rfl⟩

theorem callableRun_length (fn : ParamGroup → Nat → Value × Nat) :
    ∀ (l : List ParamGroup) (st : Nat),
      (callableRun fn l st).1.length = l.length := by
  intro l
  induction l with
  | nil => intro st; rfl
  | cons p rest ih => intro st; simp [callableRun, ih]

theorem em_single_callable (k : String) (fn : ParamGroup → Nat → Value × Nat)
    (hfn : ∀ p s, (fn p s).1 ≠ Value.none) :
    ∀ (cps : List ParamGroup) (st : Nat),
      _process_executemany_defaults
        [⟨k, some (ColDefault.callable fn), Option.none⟩] [] cps st =
        ((cps.zip (callableRun fn cps st).1).map
          (fun pv => setParam pv.1 k pv.2),
         (callableRun fn cps st).2,
         (callableRun fn cps st).1.map (Event.defaultCallable k)) := by
  intro cps
  unfold _process_executemany_defaults
  induction cps with
  | nil => intro st; rfl
  | cons p rest ih =>
      intro st
      have hsd : dictLookupLast (scalar_defaults_entries
          [⟨k, some (ColDefault.callable fn), Option.none⟩] []) k =
          Option.none := rfl
      simp only [emRows, emRow, emColsInsert, emColsUpdate,
        get_insert_default, _exec_default, hsd, callableRun]
      rw [if_neg (hfn p st)]
      simp only [ih]
      rfl

/-- C5: on a multi-row batch whose single prefetch column carries a
callable (non-scalar) default that never yields None, construction
invokes the callable exactly once per row, in row order 0..N-1 (the
trace is the row-ordered list of produced values), writes the i-th
produced value into parameter group i, and the whole default-resolution
trace precedes the single `do_executemany` driver call over all N
groups. -/
theorem c5_callable_default_once_per_row_in_order
    (eo : ExecutionOptions) (compiled : SQLCompiler) (params : List ParamGroup)
    (d : Dialect) (st : Nat) (reply : DriverReply) (k : String)
    (fn : ParamGroup → Nat → Value × Nat)
    (hip : compiled.insert_prefetch =
      [⟨k, some (ColDefault.callable fn), Option.none⟩])
    (hup : compiled.update_prefetch = [])
    (hlit : compiled.literal_execute_params = false)
    (hpc : compiled.post_compile_params = false)
    (hassert : (compiled.implicit_returning && compiled.stmt_returning) = false)
    (hmulti : 1 < params.length)
    (hfn : ∀ p s, (fn p s).1 ≠ Value.none) :
    ∃ ctx,
      _init_compiled eo compiled params d st =
        (Except.ok ctx,
          (callableRun fn (constructedParams compiled params) st).2,
          (callableRun fn (constructedParams compiled params) st).1.map
            (Event.defaultCallable k)) ∧
      ctx.compiled_parameters =
        ((constructedParams compiled params).zip
          (callableRun fn (constructedParams compiled params) st).1).map
            (fun pv => setParam pv.1 k pv.2) ∧
      (callableRun fn (constructedParams compiled params) st).1.length =
        params.length ∧
      ∃ tail,
        (runCompiledDML eo compiled params d st reply).2.2 =
          (callableRun fn (constructedParams compiled params) st).1.map
            (Event.defaultCallable k) ++
            Event.doExecuteMany params.length :: tail := by
  have hA : ((compiled.isinsert || compiled.isupdate || compiled.isdelete) &&
      compiled.implicit_returning && compiled.stmt_returning) = false := by
    rw [Bool.and_assoc, hassert, Bool.and_false]
  have hem : decide (1 < params.length) = true := decide_eq_true hmulti
  have hne : params.isEmpty = false := by
    cases params with
    | nil => exact absurd hmulti (by decide)
    | cons p ps => rfl
  have hlen0 : (constructedParams compiled params).length = params.length := by
    rw [constructedParams_length, hne]
    rfl
  have hrunlen : (callableRun fn (constructedParams compiled params) st).1.length =
      params.length := by
    rw [callableRun_length, hlen0]
  have hpd : processDefaults compiled (constructedParams compiled params)
      (decide (1 < params.length)) st =
      (((constructedParams compiled params).zip
          (callableRun fn (constructedParams compiled params) st).1).map
        (fun pv => setParam pv.1 k pv.2),
       (callableRun fn (constructedParams compiled params) st).2,
       (callableRun fn (constructedParams compiled params) st).1.map
         (Event.defaultCallable k)) := by
    unfold processDefaults
    rw [hip, hup, hem]
    simp only [List.isEmpty_cons, Bool.not_false, Bool.true_or, if_true]
    exact em_single_callable k fn hfn _ _
  have hinit : _init_compiled eo compiled params d st =
      (Except.ok
        { compiled_parameters :=
            ((constructedParams compiled params).zip
              (callableRun fn (constructedParams compiled params) st).1).map
                (fun pv => setParam pv.1 k pv.2),
          parameters := assembleDriverParams compiled.positional
            compiled._bind_processors compiled.positiontup
            (((constructedParams compiled params).zip
              (callableRun fn (constructedParams compiled params) st).1).map
                (fun pv => setParam pv.1 k pv.2)),
          executemany := decide (1 < params.length),
          unicode_statement := renderSchemaTranslates compiled compiled.string,
          _is_server_side := create_cursor_is_server_side d eo
            (some compiled.stmt_kind) compiled.string,
          _is_implicit_returning :=
            ((compiled.isinsert || compiled.isupdate || compiled.isdelete) &&
              compiled.implicit_returning),
          _is_explicit_returning :=
            ((compiled.isinsert || compiled.isupdate || compiled.isdelete) &&
              compiled.stmt_returning) },
        (callableRun fn (constructedParams compiled params) st).2,
        (callableRun fn (constructedParams compiled params) st).1.map
          (Event.defaultCallable k)) := by
    simp only [_init_compiled, hA, hlit, hpc, Bool.or_self,
      Bool.false_eq_true, if_false, hpd]
  refine ⟨_, hinit, rfl, hrunlen, ?_⟩
  have hplen : (assembleDriverParams compiled.positional
      compiled._bind_processors compiled.positiontup
      (((constructedParams compiled params).zip
        (callableRun fn (constructedParams compiled params) st).1).map
          (fun pv => setParam pv.1 k pv.2))).length = params.length := by
    rw [assembleDriverParams_length, List.length_map, List.length_zip,
      hlen0, hrunlen, Nat.min_self]
  simp only [runCompiledDML, hinit, driverExecute, hem, if_true]
  rw [hplen]
  exact ⟨_, by rw [List.append_assoc, List.singleton_append]⟩

/-- C4 witness: a single-row insert of `{name: "a"}` into
`(id AUTOINCREMENT PK, name TEXT)` with driver lastrowid 7 accesses the
lastrowid hook once and yields the generated primary-key row `[7]`. -/
theorem c4_lastrowid_witness :
    c4params.length ≤ 1 ∧
    ∃ st1 ev,
      runCompiledDML baseEO c4compiled c4params baseDialect 0 c4reply =
        (Except.ok (c4pair.1, c4pair.2), st1, ev) ∧
      ev.countP Event.isLastrowidAccess = 1 ∧
      c4pair.2.inserted_primary_key_rows = some [[Value.int 7]] := by
  have hrun : runCompiledDML baseEO c4compiled c4params baseDialect 0 c4reply =
      (Except.ok (c4pair.1, c4pair.2), c4run.2.1, c4run.2.2) := rfl
  have h := c4_lastrowid_strategy_single_access baseEO c4compiled c4params
    baseDialect 0 c4reply c4pair.1 c4pair.2 c4run.2.1 c4run.2.2
    rfl rfl rfl rfl (by decide) hrun
  refine ⟨by decide, c4run.2.1, c4run.2.2, hrun, h.1, ?_⟩
  rw [h.2]
  rfl

/-- C3 witness: one INSERT under implicit RETURNING with one returned
row fetches once, derives one generated-key row `[5]`, and a subsequent
fetchone on the soft-closed result fails with the already-closed
condition. -/
theorem c3_implicit_returning_witness :
    c3reply.rows.length = c3pair.1.compiled_parameters.length ∧
    ∃ st1 ev,
      runCompiledDML baseEO c3compiled c3params baseDialect 0 c3reply =
        (Except.ok (c3pair.1, c3pair.2), st1, ev) ∧
      c3pair.2.inserted_primary_key_rows = some [[Value.int 5]] ∧
      ev.countP Event.isRowFetch = 1 ∧
      c3pair.2.result.soft_closed = true ∧
      (c3pair.2.result.fetchone).1 = Except.error SAErr.resourceClosed := by
  have hrun : runCompiledDML baseEO c3compiled c3params baseDialect 0 c3reply =
      (Except.ok (c3pair.1, c3pair.2), c3run.2.1, c3run.2.2) := rfl
  have h := c3_implicit_returning_one_pass_then_soft_close baseEO c3compiled
    c3params baseDialect 0 c3reply c3pair.1 c3pair.2 c3run.2.1 c3run.2.2
    rfl rfl rfl hrun rfl
  refine ⟨rfl, c3run.2.1, c3run.2.2, hrun, ?_, h.2.2.2.1, h.2.2.2.2.1,
    h.2.2.2.2.2⟩
  rw [h.1]
  rfl

/-- C5 witness: on a 3-row batch the counter callable runs three times
in row order producing the strictly increasing values 0, 1, 2, and the
trace places all three invocations before the `do_executemany` call. -/
theorem c5_callable_witness :
    1 < c5params.length ∧
    (∀ p s, (c5wfn p s).1 ≠ Value.none) ∧
    (callableRun c5wfn (constructedParams c5compiled c5params) 0).1 =
      [Value.int 0, Value.int 1, Value.int 2] ∧
    ∃ ctx,
      _init_compiled baseEO c5compiled c5params baseDialect 0 =
        (Except.ok ctx,
          (callableRun c5wfn (constructedParams c5compiled c5params) 0).2,
          (callableRun c5wfn (constructedParams c5compiled c5params) 0).1.map
            (Event.defaultCallable "ts")) ∧
      ctx.compiled_parameters =
        ((constructedParams c5compiled c5params).zip
          (callableRun c5wfn (constructedParams c5compiled c5params) 0).1).map
            (fun pv => setParam pv.1 "ts" pv.2) ∧
      (callableRun c5wfn (constructedParams c5compiled c5params) 0).1.length =
        c5params.length ∧
      ∃ tail,
        (runCompiledDML baseEO c5compiled c5params baseDialect 0 baseReply).2.2 =
          (callableRun c5wfn (constructedParams c5compiled c5params) 0).1.map
            (Event.defaultCallable "ts") ++
            Event.doExecuteMany c5params.length :: tail :=
  ⟨by decide, fun p s h => Value.noConfusion h, rfl,
    c5_callable_default_once_per_row_in_order baseEO c5compiled c5params
      baseDialect 0 baseReply "ts" c5wfn rfl rfl rfl rfl rfl (by decide)
      (fun p s h => Value.noConfusion h)⟩

end SqlaDefault
